import Mathlib

/-!
go-simplejson: the numeric coercion accessors of `simplejson_go11.go`.

A shallow embedding of the four coercion accessors `Json.Float64`, `Json.Int`,
`Json.Int64`, `Json.Uint64` and of their string helpers, together with the parts of
the Go standard library they call (`strconv.ParseUint`, `strconv.ParseInt`,
`strconv.Atoi`, `json.Number`), specialised to base 10, the only base the package
passes.

Conventions.
* A Go `(value, error)` result is a pair `value × Option Error`; both components are
  kept, because Go returns a value next to a non-nil error too.
* `int64`/`int` values are `Int`, `uint64` values are `Nat`; every place where the Go
  code can wrap carries an explicit `% 2^64`.
* `int` is 64 bits wide (`IntSize = 64`); the definitions named `...At` take the width
  of `int` as a parameter instead.
* A Go `string` is a Lean `String` (the decoder only produces valid UTF-8).  The
  parsers of `strconv` walk the bytes of the text; every byte of a non-ASCII character
  is `≥ 0x80` and takes the same branch as the character itself, so the walk is done
  over characters.  `len(s)` is the UTF-8 byte length.
* Everything that depends on IEEE-754 rounding of decimal text, or that the Go
  specification leaves implementation-dependent, is supplied by a `Host`.
-/

namespace simplejson

/-! ## Errors -/

/-- The error wrapped by a `*strconv.NumError`: the sentinels `strconv.ErrSyntax` and
`strconv.ErrRange`, or the "invalid bit size" error of `bitSizeError`. -/
inductive NumErrKind where
  | ErrSyntax
  | ErrRange
  | invalidBitSize (bitSize : Nat)
  deriving DecidableEq, Repr

/-- A Go `error` value, as far as this package can produce one: a `*strconv.NumError`
with its three fields, or the result of `errors.New(msg)`. -/
inductive Error where
  | NumError (Func : String) (Num : String) (Err : NumErrKind)
  | errorString (msg : String)
  deriving DecidableEq, Repr

/-- The Go call `errors.New("invalid value type")`, the error every accessor builds
when its string helper fails. -/
def invalidValueType : Error := Error.errorString "invalid value type"

/-! ## Native floats -/

/-- A `float64` value (a `float32` widens to it exactly): a finite value is
`(-1)^neg * mant * 2^exp`, kept in sign-magnitude form as IEEE-754 does. -/
inductive GoFloat where
  | finite (neg : Bool) (mant : Nat) (exp : Int)
  | inf (neg : Bool)
  | nan
  deriving DecidableEq, Repr

/-- The zero value of `float64`. -/
def GoFloat.zero : GoFloat := GoFloat.finite false 0 0

/-- The integer part of a float, cut toward zero; `none` for infinities and NaN. -/
def GoFloat.trunc : GoFloat → Option Int
  | GoFloat.finite neg mant exp =>
    let mag : Nat := if 0 ≤ exp then mant * 2 ^ exp.toNat else mant / 2 ^ (-exp).toNat
    some (if neg then -(mag : Int) else (mag : Int))
  | GoFloat.inf _ => none
  | GoFloat.nan => none

/-- What the standard library and the hardware supply and this development does not
fix: `strconv.ParseFloat(s, 64)`, and the result of a float-to-integer conversion whose
value the target cannot hold (implementation-dependent in Go). -/
structure Host where
  ParseFloat : String → GoFloat × Option Error
  floatToInt64Other : GoFloat → Int
  floatToUint64Other : GoFloat → Nat

/-! ## Machine integers -/

/-- The width of `int` (`strconv.IntSize`). -/
def IntSize : Nat := 64

/-- Conversion of an integer to `int64`: two's-complement wrap. -/
def wrapInt64 (x : Int) : Int := (x + 2 ^ 63) % 2 ^ 64 - 2 ^ 63

/-- Conversion of an integer to `uint64`: reduction modulo `2^64`. -/
def wrapUint64 (x : Int) : Nat := (x % 2 ^ 64).toNat

/-- The conversion `int64(f)` (and `int(f)`) of a float. -/
def floatToInt64 (h : Host) (f : GoFloat) : Int :=
  match f.trunc with
  | some t => if -(2 : Int) ^ 63 ≤ t ∧ t < 2 ^ 63 then t else wrapInt64 (h.floatToInt64Other f)
  | none => wrapInt64 (h.floatToInt64Other f)

/-- The conversion `uint64(f)` of a float. -/
def floatToUint64 (h : Host) (f : GoFloat) : Nat :=
  match f.trunc with
  | some t => if 0 ≤ t ∧ t < 2 ^ 64 then t.toNat else h.floatToUint64Other f % 2 ^ 64
  | none => h.floatToUint64Other f % 2 ^ 64

/-- Number of bits of `n`, for `n < 2^64`. -/
def bitLen (n : Nat) : Nat := ((List.range 64).filter (fun k => 2 ^ k ≤ n)).length

/-- The conversion `float64(n)` of a non-negative integer below `2^64`: exact up to 53
bits, else rounded to the nearest 53-bit significand, ties to even. -/
def natToFloat64 (neg : Bool) (n : Nat) : GoFloat :=
  if bitLen n ≤ 53 then GoFloat.finite neg n 0
  else
    let k := bitLen n - 53
    let q := n / 2 ^ k
    let r := n % 2 ^ k
    let half := 2 ^ (k - 1)
    let q1 := if half < r ∨ (r = half ∧ q % 2 = 1) then q + 1 else q
    GoFloat.finite neg q1 (k : Int)

/-- The conversion `float64(i)` of an `int64`. -/
def int64ToFloat64 (i : Int) : GoFloat := natToFloat64 (decide (i < 0)) i.natAbs

/-! ## The dynamic value -/

/-- The value held in `Json.data` (`interface{}`): what the decoder or a caller can put
there among the kinds the accessors distinguish. -/
inductive Data where
  | Number (text : String)
  | float32 (f : GoFloat)
  | float64 (f : GoFloat)
  | int (n : Int)
  | int8 (n : Int)
  | int16 (n : Int)
  | int32 (n : Int)
  | int64 (n : Int)
  | uint (n : Nat)
  | uint8 (n : Nat)
  | uint16 (n : Nat)
  | uint32 (n : Nat)
  | uint64 (n : Nat)
  | string (s : String)
  | bool (b : Bool)
  | null
  | array (elems : List Data)
  | object (fields : List (String × Data))

/-- A native integer is well formed when it lies in the range of its Go type. -/
def Data.WF : Data → Prop
  | Data.int n => -(2 : Int) ^ 63 ≤ n ∧ n < 2 ^ 63
  | Data.int8 n => -(2 : Int) ^ 7 ≤ n ∧ n < 2 ^ 7
  | Data.int16 n => -(2 : Int) ^ 15 ≤ n ∧ n < 2 ^ 15
  | Data.int32 n => -(2 : Int) ^ 31 ≤ n ∧ n < 2 ^ 31
  | Data.int64 n => -(2 : Int) ^ 63 ≤ n ∧ n < 2 ^ 63
  | Data.uint n => n < 2 ^ 64
  | Data.uint8 n => n < 2 ^ 8
  | Data.uint16 n => n < 2 ^ 16
  | Data.uint32 n => n < 2 ^ 32
  | Data.uint64 n => n < 2 ^ 64
  | _ => True

/-- The value of a native signed integer (`reflect.Value.Int`), if the value is one. -/
def Data.signedValue : Data → Option Int
  | Data.int n => some n
  | Data.int8 n => some n
  | Data.int16 n => some n
  | Data.int32 n => some n
  | Data.int64 n => some n
  | _ => none

/-- The value of a native unsigned integer (`reflect.Value.Uint`), if the value is
one. -/
def Data.unsignedValue : Data → Option Nat
  | Data.uint n => some n
  | Data.uint8 n => some n
  | Data.uint16 n => some n
  | Data.uint32 n => some n
  | Data.uint64 n => some n
  | _ => none

/-- The text `fmt.Sprintf("%T", raw)` prints for the dynamic type of a value. -/
def typeName : Data → String
  | Data.Number _ => "json.Number"
  | Data.float32 _ => "float32"
  | Data.float64 _ => "float64"
  | Data.int _ => "int"
  | Data.int8 _ => "int8"
  | Data.int16 _ => "int16"
  | Data.int32 _ => "int32"
  | Data.int64 _ => "int64"
  | Data.uint _ => "uint"
  | Data.uint8 _ => "uint8"
  | Data.uint16 _ => "uint16"
  | Data.uint32 _ => "uint32"
  | Data.uint64 _ => "uint64"
  | Data.string _ => "string"
  | Data.bool _ => "bool"
  | Data.null => "<nil>"
  | Data.array _ => "[]interface \x7b\x7d"
  | Data.object _ => "map[string]interface \x7b\x7d"

/-- The error of the helpers' first branch:
`errors.New(fmt.Sprintf("unable to parse, value not string: %T", raw))`. -/
def notStringError (raw : Data) : Error :=
  Error.errorString ("unable to parse, value not string: " ++ typeName raw)

/-! ## `strconv`, base 10 -/

/-- The Go type `int64` (and `int`, 64 bits wide). -/
abbrev int64 : Type := Int

/-- The Go type `uint64`. -/
abbrev uint64 : Type := Nat

/-- The Go type `string`. -/
abbrev GoString : Type := String

/-- The constructor `syntaxError(fn, str)` of `strconv`. -/
def syntaxError (fn str : String) : Error := Error.NumError fn str NumErrKind.ErrSyntax

/-- The constructor `rangeError(fn, str)` of `strconv`. -/
def rangeError (fn str : String) : Error := Error.NumError fn str NumErrKind.ErrRange

/-- The constructor `bitSizeError(fn, str, bitSize)` of `strconv`. -/
def bitSizeError (fn str : String) (bitSize : Nat) : Error :=
  Error.NumError fn str (NumErrKind.invalidBitSize bitSize)

/-- The constant `maxUint64 = 1<<64 - 1`. -/
def maxUint64 : Nat := 2 ^ 64 - 1

/-- The helper `lower(c) = c | ('x' - 'X')` of `strconv`, on a byte value. -/
def lower (c : Nat) : Nat := c ||| 32

/-- The digit switch in the loop of `ParseUint`: `'0'..'9'` (48..57) give `c - '0'`,
a letter (`'a' <= lower(c) <= 'z'`, 97..122) gives `lower(c) - 'a' + 10`, any other
byte is the `default` case. -/
def digitVal (c : Char) : Option Nat :=
  if 48 ≤ c.toNat ∧ c.toNat ≤ 57 then some (c.toNat - 48)
  else if 97 ≤ lower c.toNat ∧ lower c.toNat ≤ 122 then some (lower c.toNat - 97 + 10)
  else none

/-- The loop `for _, c := range []byte(s)` of `ParseUint` with `base = 10`, from the
accumulator `n`; `s0` is the whole text, used in the error values. -/
def parseUintLoop (s0 : String) (maxVal cutoff : Nat) : List Char → Nat → uint64 × Option Error
  | [], n => (n, none)
  | c :: cs, n =>
    match digitVal c with
    | none => (0, some (syntaxError "ParseUint" s0))
    | some d =>
      if 10 ≤ d then (0, some (syntaxError "ParseUint" s0))
      else if cutoff ≤ n then (maxVal, some (rangeError "ParseUint" s0))
      else
        let n10 := (n * 10) % 2 ^ 64
        let n1 := (n10 + d) % 2 ^ 64
        if n1 < n10 ∨ maxVal < n1 then (maxVal, some (rangeError "ParseUint" s0))
        else parseUintLoop s0 maxVal cutoff cs n1

/-- The call `strconv.ParseUint(s, 10, bitSize)`. -/
def ParseUint (s : String) (bitSize : Nat) : uint64 × Option Error :=
  if s.data = [] then (0, some (syntaxError "ParseUint" s))
  else if 64 < bitSize then (0, some (bitSizeError "ParseUint" s bitSize))
  else
    let bits := if bitSize = 0 then IntSize else bitSize
    let cutoff := maxUint64 / 10 + 1
    let maxVal := (2 ^ bits % 2 ^ 64 + 2 ^ 64 - 1) % 2 ^ 64
    parseUintLoop s maxVal cutoff s.data 0

/-- The call `strconv.ParseInt(s, 10, bitSize)`. -/
def ParseInt (s : String) (bitSize : Nat) : int64 × Option Error :=
  match s.data with
  | [] => (0, some (syntaxError "ParseInt" s))
  | c :: rest =>
    let neg : Bool := decide (c = '-')
    let body : List Char := if c = '+' ∨ c = '-' then rest else c :: rest
    let r := ParseUint (String.mk body) bitSize
    match r.2 with
    | some (Error.NumError _ _ NumErrKind.ErrSyntax) => (0, some (syntaxError "ParseInt" s))
    | some (Error.NumError _ _ (NumErrKind.invalidBitSize b)) =>
      (0, some (bitSizeError "ParseInt" s b))
    | _ =>
      let bits := if bitSize = 0 then IntSize else bitSize
      let cutoff : Nat := 2 ^ (bits - 1) % 2 ^ 64
      if neg = false ∧ cutoff ≤ r.1 then
        (wrapInt64 ((cutoff : Int) - 1), some (rangeError "ParseInt" s))
      else if neg = true ∧ cutoff < r.1 then
        (wrapInt64 (-(wrapInt64 cutoff)), some (rangeError "ParseInt" s))
      else
        let n := wrapInt64 r.1
        (if neg then wrapInt64 (-n) else n, none)

/-- The fast-path loop of `strconv.Atoi` over the digits after the sign. -/
def atoiLoop (s0 : String) : List Char → int64 → int64 × Option Error
  | [], n => (if s0.data.head? = some '-' then wrapInt64 (-n) else n, none)
  | ch :: cs, n =>
    if 48 ≤ ch.toNat ∧ ch.toNat ≤ 57 then
      atoiLoop s0 cs (wrapInt64 (n * 10 + ((ch.toNat - 48 : Nat) : Int)))
    else (0, some (syntaxError "Atoi" s0))

/-- The call `strconv.Atoi(s)`: the fast path for texts of 1 to 18 bytes, else
`ParseInt(s, 10, 0)` with the function name of the error replaced. -/
def Atoi (s : String) : int64 × Option Error :=
  let sLen := s.utf8ByteSize
  if (IntSize = 32 ∧ 0 < sLen ∧ sLen < 10) ∨ (IntSize = 64 ∧ 0 < sLen ∧ sLen < 19) then
    match s.data with
    | [] => (0, some (syntaxError "Atoi" s))
    | c :: rest =>
      if c = '-' ∨ c = '+' then
        if rest.length < 1 then (0, some (syntaxError "Atoi" s))
        else atoiLoop s rest 0
      else atoiLoop s (c :: rest) 0
  else
    match ParseInt s 0 with
    | (i64, some (Error.NumError _ num err)) =>
      (wrapInt64 i64, some (Error.NumError "Atoi" num err))
    | (i64, err) => (wrapInt64 i64, err)

/-! ## `json.Number` -/

/-- The type `json.Number` (`type Number string`): the text of a number literal. -/
abbrev Number : Type := String

/-- The method `Number.String`: the text itself. -/
def Number.String (n : Number) : GoString := n

/-- The method `Number.Float64`: `strconv.ParseFloat(string(n), 64)`. -/
def Number.Float64 (h : Host) (n : Number) : GoFloat × Option Error := h.ParseFloat n

/-- The method `Number.Int64`: `strconv.ParseInt(string(n), 10, 64)`. -/
def Number.Int64 (n : Number) : int64 × Option Error := ParseInt n 64

/-! ## The string helpers -/

/-- The function `floatFromString`. -/
def floatFromString (h : Host) (raw : Data) : GoFloat × Option Error :=
  match raw with
  | Data.string str =>
    match h.ParseFloat str with
    | (_, some err) => (GoFloat.zero, some err)
    | (flt, none) => (flt, none)
  | _ => (GoFloat.zero, some (notStringError raw))

/-- The function `intFromString`. -/
def intFromString (raw : Data) : int64 × Option Error :=
  match raw with
  | Data.string str =>
    match Atoi str with
    | (_, some err) => (0, some err)
    | (n, none) => (n, none)
  | _ => (0, some (notStringError raw))

/-- The function `int64FromString`. -/
def int64FromString (raw : Data) : int64 × Option Error :=
  match raw with
  | Data.string str =>
    match ParseInt str 0 with
    | (_, some err) => (0, some err)
    | (n, none) => (n, none)
  | _ => (0, some (notStringError raw))

/-- The function `uint64FromString`. -/
def uint64FromString (raw : Data) : uint64 × Option Error :=
  match raw with
  | Data.string str =>
    match ParseUint str 0 with
    | (_, some err) => (0, some err)
    | (n, none) => (n, none)
  | _ => (0, some (notStringError raw))

/-! ## The accessors -/

/-- The type `Json`: a wrapper around the decoded value. -/
structure Json where
  data : Data

/-- The method `Json.Float64`. -/
def Json.Float64 (h : Host) (j : Json) : GoFloat × Option Error :=
  match j.data with
  | Data.Number text => Number.Float64 h text
  | Data.float32 f | Data.float64 f => (f, none)
  | Data.int n | Data.int8 n | Data.int16 n | Data.int32 n | Data.int64 n =>
    (int64ToFloat64 n, none)
  | Data.uint n | Data.uint8 n | Data.uint16 n | Data.uint32 n | Data.uint64 n =>
    (natToFloat64 false n, none)
  | raw =>
    match floatFromString h raw with
    | (f, none) => (f, none)
    | (_, some _) => (GoFloat.zero, some invalidValueType)

/-- The method `Json.Int` (`int` is 64 bits wide, so `int(x)` is `wrapInt64 x`). -/
def Json.Int (h : Host) (j : Json) : int64 × Option Error :=
  match j.data with
  | Data.Number text =>
    let r := Number.Int64 text
    (wrapInt64 r.1, r.2)
  | Data.float32 f | Data.float64 f => (floatToInt64 h f, none)
  | Data.int n | Data.int8 n | Data.int16 n | Data.int32 n | Data.int64 n =>
    (wrapInt64 n, none)
  | Data.uint n | Data.uint8 n | Data.uint16 n | Data.uint32 n | Data.uint64 n =>
    (wrapInt64 n, none)
  | raw =>
    match intFromString raw with
    | (i, none) => (i, none)
    | (_, some _) => (0, some invalidValueType)

/-- The method `Json.Int64`. -/
def Json.Int64 (h : Host) (j : Json) : int64 × Option Error :=
  match j.data with
  | Data.Number text => Number.Int64 text
  | Data.float32 f | Data.float64 f => (floatToInt64 h f, none)
  | Data.int n | Data.int8 n | Data.int16 n | Data.int32 n | Data.int64 n => (n, none)
  | Data.uint n | Data.uint8 n | Data.uint16 n | Data.uint32 n | Data.uint64 n =>
    (wrapInt64 n, none)
  | raw =>
    match int64FromString raw with
    | (i, none) => (i, none)
    | (_, some _) => (0, some invalidValueType)

/-- The method `Json.Uint64`. -/
def Json.Uint64 (h : Host) (j : Json) : uint64 × Option Error :=
  match j.data with
  | Data.Number text => ParseUint (Number.String text) 64
  | Data.float32 f | Data.float64 f => (floatToUint64 h f, none)
  | Data.int n | Data.int8 n | Data.int16 n | Data.int32 n | Data.int64 n =>
    (wrapUint64 n, none)
  | Data.uint n | Data.uint8 n | Data.uint16 n | Data.uint32 n | Data.uint64 n => (n, none)
  | raw =>
    match uint64FromString raw with
    | (i, none) => (i, none)
    | (_, some _) => (0, some invalidValueType)

/-- A host used to evaluate the accessors on concrete inputs that involve no float: its
`ParseFloat` rejects every text, and it is only applied to texts that are not float
literals. -/
def Host.trivial : Host :=
  ⟨fun s => (GoFloat.zero, some (syntaxError "ParseFloat" s)), fun _ => -(2 : Int) ^ 63,
    fun _ => 2 ^ 63⟩

/-- The canonical base-10 text of an integer (`strconv.FormatInt(n, 10)`): the decimal
digits of its magnitude, with a leading `-` when it is negative. -/
def FormatInt (n : Int) : String :=
  if n < 0 then "-" ++ Nat.repr n.natAbs else Nat.repr n.natAbs

/-! ## The words of the specification about number texts -/

/-- An ASCII decimal digit, `'0'` (48) to `'9'` (57). -/
def isDigit (c : Char) : Bool := decide (48 ≤ c.toNat ∧ c.toNat ≤ 57)

/-- The number a run of decimal digits denotes, read left to right from `n`. -/
def digitsValue (cs : List Char) (n : Nat) : Nat :=
  cs.foldl (fun a c => a * 10 + (c.toNat - 48)) n

/-- A valid unsigned base-10 text: one or more ASCII digits. -/
def isDecimalNat (cs : List Char) : Bool := !cs.isEmpty && cs.all isDigit

/-- A valid base-10 integer text: an optional `+` or `-` sign followed by one or more
ASCII digits. -/
def isDecimalInteger : List Char → Bool
  | [] => false
  | c :: rest => if c = '+' ∨ c = '-' then isDecimalNat rest else isDecimalNat (c :: rest)

/-- The integer a valid base-10 integer text denotes. -/
def decimalValue : List Char → Int
  | [] => 0
  | c :: rest =>
    if c = '-' then -((digitsValue rest 0 : Nat) : Int)
    else if c = '+' then ((digitsValue rest 0 : Nat) : Int)
    else ((digitsValue (c :: rest) 0 : Nat) : Int)

/-! ## The words of the specification about floats -/

/-- The magnitude `|f|` of a finite float as a rational number, `mant * 2^exp` (and 0
for an infinity or NaN, which have none). -/
def GoFloat.absValue : GoFloat → ℚ
  | GoFloat.finite _ mant exp =>
    if 0 ≤ exp then (mant : ℚ) * 2 ^ exp.toNat else (mant : ℚ) / 2 ^ (-exp).toNat
  | GoFloat.inf _ => 0
  | GoFloat.nan => 0

/-! ## The helpers and the accessors with a log of the helper's branches

Which branch of a helper an execution passes through does not show in the value an
accessor returns.  The definitions below are the helpers and the accessors above with a
log added: a helper logs the branch it takes, an accessor logs what the helper it
calls has logged, and nothing when a case of its type switch returns before the call.
Dropping the log gives the definitions above back. -/

/-- A branch of a string helper: the `if !ok` branch, which returns the "value not
string" error, or the call of the `strconv` parser on a confirmed string. -/
inductive Branch where
  | valueNotString (helper : String)
  | parse (helper : String)
  deriving DecidableEq, Repr

/-- The function `floatFromString`, with the branch it takes. -/
def floatFromStringLog (h : Host) (raw : Data) : (GoFloat × Option Error) × List Branch :=
  match raw with
  | Data.string str =>
    (match h.ParseFloat str with
      | (_, some err) => (GoFloat.zero, some err)
      | (flt, none) => (flt, none),
     [Branch.parse "floatFromString"])
  | _ =>
    ((GoFloat.zero, some (notStringError raw)), [Branch.valueNotString "floatFromString"])

/-- The function `intFromString`, with the branch it takes. -/
def intFromStringLog (raw : Data) : (int64 × Option Error) × List Branch :=
  match raw with
  | Data.string str =>
    (match Atoi str with
      | (_, some err) => (0, some err)
      | (n, none) => (n, none),
     [Branch.parse "intFromString"])
  | _ => ((0, some (notStringError raw)), [Branch.valueNotString "intFromString"])

/-- The function `int64FromString`, with the branch it takes. -/
def int64FromStringLog (raw : Data) : (int64 × Option Error) × List Branch :=
  match raw with
  | Data.string str =>
    (match ParseInt str 0 with
      | (_, some err) => (0, some err)
      | (n, none) => (n, none),
     [Branch.parse "int64FromString"])
  | _ => ((0, some (notStringError raw)), [Branch.valueNotString "int64FromString"])

/-- The function `uint64FromString`, with the branch it takes. -/
def uint64FromStringLog (raw : Data) : (uint64 × Option Error) × List Branch :=
  match raw with
  | Data.string str =>
    (match ParseUint str 0 with
      | (_, some err) => (0, some err)
      | (n, none) => (n, none),
     [Branch.parse "uint64FromString"])
  | _ => ((0, some (notStringError raw)), [Branch.valueNotString "uint64FromString"])

/-- The method `Json.Float64`, with the branches of the helper call. -/
def Json.Float64Log (h : Host) (j : Json) : (GoFloat × Option Error) × List Branch :=
  match j.data with
  | Data.Number text => (Number.Float64 h text, [])
  | Data.float32 f | Data.float64 f => ((f, none), [])
  | Data.int n | Data.int8 n | Data.int16 n | Data.int32 n | Data.int64 n =>
    ((int64ToFloat64 n, none), [])
  | Data.uint n | Data.uint8 n | Data.uint16 n | Data.uint32 n | Data.uint64 n =>
    ((natToFloat64 false n, none), [])
  | raw =>
    match floatFromStringLog h raw with
    | ((f, none), log) => ((f, none), log)
    | ((_, some _), log) => ((GoFloat.zero, some invalidValueType), log)

/-- The method `Json.Int`, with the branches of the helper call. -/
def Json.IntLog (h : Host) (j : Json) : (int64 × Option Error) × List Branch :=
  match j.data with
  | Data.Number text =>
    let r := Number.Int64 text
    ((wrapInt64 r.1, r.2), [])
  | Data.float32 f | Data.float64 f => ((floatToInt64 h f, none), [])
  | Data.int n | Data.int8 n | Data.int16 n | Data.int32 n | Data.int64 n =>
    ((wrapInt64 n, none), [])
  | Data.uint n | Data.uint8 n | Data.uint16 n | Data.uint32 n | Data.uint64 n =>
    ((wrapInt64 n, none), [])
  | raw =>
    match intFromStringLog raw with
    | ((i, none), log) => ((i, none), log)
    | ((_, some _), log) => ((0, some invalidValueType), log)

/-- The method `Json.Int64`, with the branches of the helper call. -/
def Json.Int64Log (h : Host) (j : Json) : (int64 × Option Error) × List Branch :=
  match j.data with
  | Data.Number text => (Number.Int64 text, [])
  | Data.float32 f | Data.float64 f => ((floatToInt64 h f, none), [])
  | Data.int n | Data.int8 n | Data.int16 n | Data.int32 n | Data.int64 n => ((n, none), [])
  | Data.uint n | Data.uint8 n | Data.uint16 n | Data.uint32 n | Data.uint64 n =>
    ((wrapInt64 n, none), [])
  | raw =>
    match int64FromStringLog raw with
    | ((i, none), log) => ((i, none), log)
    | ((_, some _), log) => ((0, some invalidValueType), log)

/-- The method `Json.Uint64`, with the branches of the helper call. -/
def Json.Uint64Log (h : Host) (j : Json) : (uint64 × Option Error) × List Branch :=
  match j.data with
  | Data.Number text => (ParseUint (Number.String text) 64, [])
  | Data.float32 f | Data.float64 f => ((floatToUint64 h f, none), [])
  | Data.int n | Data.int8 n | Data.int16 n | Data.int32 n | Data.int64 n =>
    ((wrapUint64 n, none), [])
  | Data.uint n | Data.uint8 n | Data.uint16 n | Data.uint32 n | Data.uint64 n =>
    ((n, none), [])
  | raw =>
    match uint64FromStringLog raw with
    | ((i, none), log) => ((i, none), log)
    | ((_, some _), log) => ((0, some invalidValueType), log)

/-! ## The width of `int` as a parameter

The definitions above fix `int` at 64 bits, which most claims state.  The calls that
pass `bitSize = 0` run at the width of `int`; the definitions below are the ones of
`ParseUint`, `ParseInt`, `int64FromString` and `Json.Int64` with that width as the
parameter `intSize` in place of `IntSize`. -/

theorem wrapInt64_of_range (x : Int) (h1 : -(2 : Int) ^ 63 ≤ x) (h2 : x < 2 ^ 63) :
    wrapInt64 x = x := by
  unfold wrapInt64
  norm_num at h1 h2 ⊢
  omega

theorem wrapInt64_of_nat (u : Nat) (hu : u < 2 ^ 64) :
    wrapInt64 (u : Int) = if u < 2 ^ 63 then (u : Int) else (u : Int) - 2 ^ 64 := by
  unfold wrapInt64
  norm_num at hu ⊢
  split_ifs <;> omega

/-! ## The digit switch -/

theorem digitVal_of_digit (c : Char) (h : isDigit c = true) :
    digitVal c = some (c.toNat - 48) ∧ c.toNat - 48 < 10 := by
  simp only [isDigit, decide_eq_true_eq] at h
  refine ⟨?_, by omega⟩
  simp [digitVal, h]

theorem digitVal_lt_ten (c : Char) (d : Nat) (h : digitVal c = some d) (hd : d < 10) :
    isDigit c = true ∧ d = c.toNat - 48 := by
  unfold digitVal at h
  split_ifs at h with h1 h2
  · simp only [Option.some.injEq] at h
    exact ⟨by simp [isDigit, h1], h.symm⟩
  · simp only [Option.some.injEq] at h
    omega

theorem digitVal_not_digit (c : Char) (h : isDigit c = false) :
    digitVal c = none ∨ ∃ d, digitVal c = some d ∧ 10 ≤ d := by
  cases hv : digitVal c with
  | none => exact Or.inl rfl
  | some d =>
    right
    refine ⟨d, rfl, ?_⟩
    by_contra hlt
    have := digitVal_lt_ten c d hv (by omega)
    simp [h] at this

theorem digitsValue_cons (c : Char) (cs : List Char) (n : Nat) :
    digitsValue (c :: cs) n = digitsValue cs (n * 10 + (c.toNat - 48)) := rfl

theorem le_digitsValue (cs : List Char) (n : Nat) : n ≤ digitsValue cs n := by
  induction cs generalizing n with
  | nil => exact Nat.le_refl _
  | cons c cs ih =>
    rw [digitsValue_cons]
    have := ih (n * 10 + (c.toNat - 48))
    omega

/-! ## The loop of `ParseUint` -/

theorem parseUintLoop_nil (s0 : String) (maxVal cutoff n : Nat) :
    parseUintLoop s0 maxVal cutoff [] n = (n, none) := rfl

/-- One step of the loop on a digit that keeps the accumulator within `maxVal`. -/
theorem parseUintLoop_digit_step (s0 : String) (maxVal : Nat) (c : Char) (cs : List Char)
    (n : Nat) (hc : isDigit c = true) (hmax : maxVal < 2 ^ 64)
    (hle : n * 10 + (c.toNat - 48) ≤ maxVal) :
    parseUintLoop s0 maxVal 1844674407370955162 (c :: cs) n
      = parseUintLoop s0 maxVal 1844674407370955162 cs (n * 10 + (c.toNat - 48)) := by
  obtain ⟨hv, hd⟩ := digitVal_of_digit c hc
  norm_num at hmax
  have h1 : ¬ (10 ≤ c.toNat - 48) := by omega
  have h2 : ¬ (1844674407370955162 ≤ n) := by omega
  have h3 : (n * 10) % 2 ^ 64 = n * 10 := by norm_num; omega
  have h4 : (n * 10 + (c.toNat - 48)) % 2 ^ 64 = n * 10 + (c.toNat - 48) := by
    norm_num; omega
  have h5 : ¬ (n * 10 + (c.toNat - 48) < n * 10 ∨ maxVal < n * 10 + (c.toNat - 48)) := by
    omega
  rw [parseUintLoop, hv]
  simp only [h1, h2, h3, h4, h5, if_false]

/-- One step of the loop on a digit that takes the accumulator above `maxVal`. -/
theorem parseUintLoop_digit_overflow (s0 : String) (maxVal : Nat) (c : Char) (cs : List Char)
    (n : Nat) (hc : isDigit c = true) (hgt : maxVal < n * 10 + (c.toNat - 48)) :
    parseUintLoop s0 maxVal 1844674407370955162 (c :: cs) n
      = (maxVal, some (rangeError "ParseUint" s0)) := by
  obtain ⟨hv, hd⟩ := digitVal_of_digit c hc
  have h1 : ¬ (10 ≤ c.toNat - 48) := by omega
  rw [parseUintLoop, hv]
  simp only [h1, if_false]
  by_cases h2 : 1844674407370955162 ≤ n
  · simp only [h2, if_true]
  · have h3 : (n * 10) % 2 ^ 64 = n * 10 := by norm_num; omega
    have h5 : ((n * 10 + (c.toNat - 48)) % 2 ^ 64 < n * 10
        ∨ maxVal < (n * 10 + (c.toNat - 48)) % 2 ^ 64) := by
      norm_num; omega
    simp only [h2, h3, h5, if_false, if_true]

/-- One step of the loop on a byte that is not a decimal digit. -/
theorem parseUintLoop_not_digit (s0 : String) (maxVal cutoff : Nat) (c : Char)
    (cs : List Char) (n : Nat) (hc : isDigit c = false) :
    parseUintLoop s0 maxVal cutoff (c :: cs) n = (0, some (syntaxError "ParseUint" s0)) := by
  rcases digitVal_not_digit c hc with hv | ⟨d, hv, hd⟩
  · rw [parseUintLoop, hv]
  · rw [parseUintLoop, hv]
    simp only [hd, if_true]

/-- Whenever the loop fails, it returns `0` with a syntax error or `maxVal` with a range
error, both naming `ParseUint` and the whole text. -/
theorem parseUintLoop_error (s0 : String) (maxVal : Nat) (hmax : maxVal < 2 ^ 64)
    (cs : List Char) (n : Nat) (e : Error)
    (he : (parseUintLoop s0 maxVal 1844674407370955162 cs n).2 = some e) :
    parseUintLoop s0 maxVal 1844674407370955162 cs n = (0, some (syntaxError "ParseUint" s0))
    ∨ parseUintLoop s0 maxVal 1844674407370955162 cs n
        = (maxVal, some (rangeError "ParseUint" s0)) := by
  induction cs generalizing n with
  | nil => simp [parseUintLoop_nil] at he
  | cons c cs ih =>
    cases hc : isDigit c with
    | false => exact Or.inl (parseUintLoop_not_digit s0 maxVal _ c cs n hc)
    | true =>
      by_cases hle : n * 10 + (c.toNat - 48) ≤ maxVal
      · rw [parseUintLoop_digit_step s0 maxVal c cs n hc hmax hle] at he ⊢
        exact ih _ he
      · exact Or.inr (parseUintLoop_digit_overflow s0 maxVal c cs n hc (by omega))

/-- The loop succeeds exactly on a run of digits whose value stays within `maxVal`, and
then returns that value. -/
theorem parseUintLoop_ok_iff (s0 : String) (maxVal : Nat) (hmax : maxVal < 2 ^ 64)
    (cs : List Char) (n : Nat) (hn : n ≤ maxVal) :
    ((parseUintLoop s0 maxVal 1844674407370955162 cs n).2 = none
      ↔ (cs.all isDigit = true ∧ digitsValue cs n ≤ maxVal))
    ∧ ((parseUintLoop s0 maxVal 1844674407370955162 cs n).2 = none →
        (parseUintLoop s0 maxVal 1844674407370955162 cs n).1 = digitsValue cs n) := by
  induction cs generalizing n with
  | nil => simp [parseUintLoop_nil, digitsValue, hn]
  | cons c cs ih =>
    cases hc : isDigit c with
    | false =>
      rw [parseUintLoop_not_digit s0 maxVal _ c cs n hc]
      simp [hc]
    | true =>
      by_cases hle : n * 10 + (c.toNat - 48) ≤ maxVal
      · rw [parseUintLoop_digit_step s0 maxVal c cs n hc hmax hle, digitsValue_cons]
        have := ih _ hle
        simpa [hc] using this
      · rw [parseUintLoop_digit_overflow s0 maxVal c cs n hc (by omega),
          digitsValue_cons]
        have := le_digitsValue cs (n * 10 + (c.toNat - 48))
        simp only [reduceCtorEq, List.all_cons, hc, Bool.true_and, false_iff, not_and,
          not_le, false_implies, and_true]
        intro _
        omega

/-! ## `ParseUint` and `ParseInt` at 64 bits -/

theorem ParseUint_eq_loop (t : String) (b : Nat) (hb : b = 0 ∨ b = 64) :
    ParseUint t b
      = if t.data = [] then (0, some (syntaxError "ParseUint" t))
        else parseUintLoop t 18446744073709551615 1844674407370955162 t.data 0 := by
  rcases hb with rfl | rfl <;> simp [ParseUint, IntSize, maxUint64]

/-- The three outcomes of `ParseUint(t, 10, 64)`. -/
theorem ParseUint_cases (t : String) (b : Nat) (hb : b = 0 ∨ b = 64) :
    (ParseUint t b = (0, some (syntaxError "ParseUint" t))
        ∧ ¬ (isDecimalNat t.data = true ∧ digitsValue t.data 0 ≤ 18446744073709551615))
    ∨ (ParseUint t b = (18446744073709551615, some (rangeError "ParseUint" t))
        ∧ ¬ (isDecimalNat t.data = true ∧ digitsValue t.data 0 ≤ 18446744073709551615))
    ∨ (ParseUint t b = (digitsValue t.data 0, none)
        ∧ isDecimalNat t.data = true ∧ digitsValue t.data 0 ≤ 18446744073709551615) := by
  rw [ParseUint_eq_loop t b hb]
  by_cases hem : t.data = []
  · left
    simp [hem, isDecimalNat]
  · have hne : t.data.isEmpty = false := by
      cases h : t.data with
      | nil => exact absurd h hem
      | cons c cs => rfl
    simp only [hem, if_false, isDecimalNat, hne, Bool.not_false, Bool.true_and]
    obtain ⟨hiff, hval⟩ := parseUintLoop_ok_iff t 18446744073709551615 (by norm_num)
      t.data 0 (by norm_num)
    cases hr : (parseUintLoop t 18446744073709551615 1844674407370955162 t.data 0).2 with
    | none =>
      right; right
      have h1 := hiff.mp hr
      have h2 := hval hr
      refine ⟨?_, h1⟩
      exact Prod.ext h2 hr
    | some e =>
      have hno : ¬ (t.data.all isDigit = true ∧ digitsValue t.data 0 ≤ 18446744073709551615) := by
        intro h
        have := hiff.mpr h
        rw [hr] at this
        exact absurd this (by simp)
      rcases parseUintLoop_error t 18446744073709551615 (by norm_num) t.data 0 e hr with h | h
      · exact Or.inl ⟨h, hno⟩
      · exact Or.inr (Or.inl ⟨h, hno⟩)

/-- The sign handling of `ParseInt` on a non-empty text: the digits after an optional
sign. -/
theorem isDecimalInteger_cons (c : Char) (rest : List Char) :
    isDecimalInteger (c :: rest)
      = isDecimalNat (if c = '+' ∨ c = '-' then rest else c :: rest) := by
  simp only [isDecimalInteger]
  split_ifs <;> rfl

theorem decimalValue_cons (c : Char) (rest : List Char) :
    decimalValue (c :: rest)
      = if c = '-' then
          -((digitsValue (if c = '+' ∨ c = '-' then rest else c :: rest) 0 : Nat) : Int)
        else ((digitsValue (if c = '+' ∨ c = '-' then rest else c :: rest) 0 : Nat) : Int) := by
  unfold decimalValue
  by_cases h1 : c = '-'
  · simp [h1]
  · by_cases h2 : c = '+'
    · simp [h2]
    · simp [h1, h2]

/-- The four outcomes of `ParseInt(s, 10, 64)`: a syntax error with `0`, a range error
with the nearest bound, or the value of a valid text that fits. -/
theorem ParseInt_cases (s : String) (b : Nat) (hb : b = 0 ∨ b = 64) :
    (ParseInt s b = (0, some (syntaxError "ParseInt" s))
        ∧ ¬ (isDecimalInteger s.data = true ∧ -(2 : Int) ^ 63 ≤ decimalValue s.data
              ∧ decimalValue s.data ≤ 2 ^ 63 - 1))
    ∨ (ParseInt s b = (2 ^ 63 - 1, some (rangeError "ParseInt" s))
        ∧ ¬ (isDecimalInteger s.data = true ∧ -(2 : Int) ^ 63 ≤ decimalValue s.data
              ∧ decimalValue s.data ≤ 2 ^ 63 - 1))
    ∨ (ParseInt s b = (-(2 : Int) ^ 63, some (rangeError "ParseInt" s))
        ∧ ¬ (isDecimalInteger s.data = true ∧ -(2 : Int) ^ 63 ≤ decimalValue s.data
              ∧ decimalValue s.data ≤ 2 ^ 63 - 1))
    ∨ (ParseInt s b = (decimalValue s.data, none)
        ∧ isDecimalInteger s.data = true ∧ -(2 : Int) ^ 63 ≤ decimalValue s.data
        ∧ decimalValue s.data ≤ 2 ^ 63 - 1) := by
  have hbits : (if b = 0 then IntSize else b) = 64 := by
    rcases hb with rfl | rfl <;> simp [IntSize]
  cases hs : s.data with
  | nil =>
    left
    simp [ParseInt, hs, isDecimalInteger]
  | cons c rest =>
    rw [isDecimalInteger_cons, decimalValue_cons]
    have hP : ParseInt s b
        = (let neg : Bool := decide (c = '-')
           let body : List Char := if c = '+' ∨ c = '-' then rest else c :: rest
           let r := ParseUint (String.mk body) b
           match r.2 with
           | some (Error.NumError _ _ NumErrKind.ErrSyntax) =>
             (0, some (syntaxError "ParseInt" s))
           | some (Error.NumError _ _ (NumErrKind.invalidBitSize b)) =>
             (0, some (bitSizeError "ParseInt" s b))
           | _ =>
             let bits := if b = 0 then IntSize else b
             let cutoff : Nat := 2 ^ (bits - 1) % 2 ^ 64
             if neg = false ∧ cutoff ≤ r.1 then
               (wrapInt64 ((cutoff : Int) - 1), some (rangeError "ParseInt" s))
             else if neg = true ∧ cutoff < r.1 then
               (wrapInt64 (-(wrapInt64 cutoff)), some (rangeError "ParseInt" s))
             else
               let n := wrapInt64 r.1
               (if neg then wrapInt64 (-n) else n, none)) := by
      simp only [ParseInt, hs]
    rw [hP]
    generalize (if c = '+' ∨ c = '-' then rest else c :: rest) = body
    have hu := ParseUint_cases (String.mk body) b hb
    simp only [hbits]
    have hdata : (String.mk body).data = body := rfl
    rw [hdata] at hu
    have hcut : (2 : Nat) ^ (64 - 1) % 2 ^ 64 = 9223372036854775808 := by norm_num
    have hinv : ¬ (isDecimalNat body = true ∧ digitsValue body 0 ≤ 18446744073709551615) →
        ¬ (isDecimalNat body = true
            ∧ -(2 : Int) ^ 63 ≤ (if c = '-' then -((digitsValue body 0 : Nat) : Int)
                else ((digitsValue body 0 : Nat) : Int))
            ∧ (if c = '-' then -((digitsValue body 0 : Nat) : Int)
                else ((digitsValue body 0 : Nat) : Int)) ≤ 2 ^ 63 - 1) := by
      rintro hno ⟨h1, h2, h3⟩
      apply hno
      refine ⟨h1, ?_⟩
      norm_num at h2 h3
      split_ifs at h2 h3 <;> omega
    rcases hu with ⟨hr, hno⟩ | ⟨hr, hno⟩ | ⟨hr, hv, hle⟩
    · left
      simp only [hr, syntaxError]
      exact ⟨trivial, hinv hno⟩
    · right
      simp only [hr, rangeError, hcut]
      by_cases hneg : c = '-'
      · right; left
        refine ⟨?_, hinv hno⟩
        simp [hneg, wrapInt64]
      · left
        refine ⟨?_, hinv hno⟩
        simp [hneg, wrapInt64]
    · simp only [hr, hcut]
      by_cases hneg : c = '-'
      · by_cases hbig : 9223372036854775808 < digitsValue body 0
        · right; right; left
          refine ⟨by simp [hneg, hbig, wrapInt64, rangeError], ?_⟩
          rintro ⟨-, h2, -⟩
          simp only [hneg, if_true] at h2
          norm_num at h2
          omega
        · right; right; right
          have hw : wrapInt64 (-wrapInt64 ((digitsValue body 0 : Nat) : Int))
              = -((digitsValue body 0 : Nat) : Int) := by
            unfold wrapInt64
            norm_num
            omega
          refine ⟨by simp [hneg, hbig, hw], hv, ?_, ?_⟩
          · simp only [hneg, if_true]
            norm_num
            omega
          · simp only [hneg, if_true]
            norm_num
            omega
      · by_cases hbig : 9223372036854775808 ≤ digitsValue body 0
        · right; left
          refine ⟨by simp [hneg, hbig, wrapInt64, rangeError], ?_⟩
          rintro ⟨-, -, h3⟩
          simp only [hneg, if_false] at h3
          norm_num at h3
          omega
        · right; right; right
          have hw : wrapInt64 ((digitsValue body 0 : Nat) : Int)
              = ((digitsValue body 0 : Nat) : Int) := by
            unfold wrapInt64
            norm_num
            omega
          refine ⟨by simp [hneg, hbig, hw], hv, ?_, ?_⟩
          · simp only [hneg, if_false]
            norm_num
            omega
          · simp only [hneg, if_false]
            norm_num
            omega

/-! ## The canonical decimal text -/

theorem digitChar_digit (k : Nat) (hk : k < 10) :
    isDigit (Nat.digitChar k) = true ∧ (Nat.digitChar k).toNat - 48 = k := by
  interval_cases k <;> exact ⟨by decide, by decide⟩

theorem toDigitsCore_all_digits (fuel n : Nat) (ds : List Char)
    (hds : ds.all isDigit = true) : (Nat.toDigitsCore 10 fuel n ds).all isDigit = true := by
  induction fuel generalizing n ds with
  | zero => simpa [Nat.toDigitsCore] using hds
  | succ fuel ih =>
    have hd := (digitChar_digit (n % 10) (Nat.mod_lt _ (by norm_num))).1
    have hcons : (Nat.digitChar (n % 10) :: ds).all isDigit = true := by
      simp only [List.all_cons, hd, hds, Bool.and_self]
    simp only [Nat.toDigitsCore]
    split_ifs
    · exact hcons
    · exact ih _ _ hcons

theorem toDigitsCore_ne_nil (fuel n : Nat) (ds : List Char) :
    Nat.toDigitsCore 10 (fuel + 1) n ds ≠ [] := by
  induction fuel generalizing n ds with
  | zero =>
    simp only [Nat.toDigitsCore]
    split_ifs <;> simp
  | succ fuel ih =>
    rw [Nat.toDigitsCore]
    split_ifs
    · simp
    · exact ih _ _

theorem toDigitsCore_value (fuel n : Nat) (ds : List Char) (hf : n < fuel) :
    digitsValue (Nat.toDigitsCore 10 fuel n ds) 0 = digitsValue ds n := by
  induction fuel generalizing n ds with
  | zero => omega
  | succ fuel ih =>
    have hk := (digitChar_digit (n % 10) (Nat.mod_lt _ (by norm_num))).2
    simp only [Nat.toDigitsCore]
    split_ifs with h0
    · rw [digitsValue_cons, hk]
      congr 1
      omega
    · rw [ih (n / 10) _ (by omega), digitsValue_cons, hk]
      congr 1
      omega

theorem repr_data (m : Nat) : (Nat.repr m).data = Nat.toDigits 10 m := rfl

/-- The decimal text of a natural number is a non-empty run of digits denoting it. -/
theorem repr_decimal (m : Nat) :
    isDecimalNat (Nat.repr m).data = true ∧ digitsValue (Nat.repr m).data 0 = m := by
  rw [repr_data]
  unfold Nat.toDigits
  refine ⟨?_, ?_⟩
  · have h1 := toDigitsCore_ne_nil m m []
    have h2 := toDigitsCore_all_digits (m + 1) m [] rfl
    cases hl : Nat.toDigitsCore 10 (m + 1) m [] with
    | nil => exact absurd hl h1
    | cons c cs =>
      rw [hl] at h2
      simpa [isDecimalNat] using h2
  · rw [toDigitsCore_value (m + 1) m [] (by omega)]
    rfl

theorem isDecimalNat_head (c : Char) (cs : List Char) (h : isDecimalNat (c :: cs) = true) :
    isDigit c = true := by
  simp only [isDecimalNat, List.isEmpty_cons, Bool.not_false, List.all_cons, Bool.true_and,
    Bool.and_eq_true] at h
  exact h.1

theorem isDigit_not_sign (c : Char) (h : isDigit c = true) : ¬ (c = '+' ∨ c = '-') := by
  rintro (rfl | rfl) <;> exact absurd h (by decide)

/-- The canonical text of an integer is a valid base-10 integer text denoting it. -/
theorem FormatInt_decimal (n : Int) :
    isDecimalInteger (FormatInt n).data = true ∧ decimalValue (FormatInt n).data = n := by
  obtain ⟨hv, hd⟩ := repr_decimal n.natAbs
  unfold FormatInt
  split_ifs with hneg
  · have hdata : ("-" ++ Nat.repr n.natAbs).data = '-' :: (Nat.repr n.natAbs).data := by
      simp [String.data_append]
    rw [hdata, isDecimalInteger_cons, decimalValue_cons]
    simp only [or_true, if_true, hv, hd, true_and]
    have := Int.natAbs_neg n
    omega
  · cases hl : (Nat.repr n.natAbs).data with
    | nil => rw [hl] at hv; simp [isDecimalNat] at hv
    | cons c cs =>
      rw [hl] at hv hd
      have hc := isDecimalNat_head c cs hv
      have hns := isDigit_not_sign c hc
      have hnm : ¬ (c = '-') := fun h => hns (Or.inr h)
      rw [isDecimalInteger_cons, decimalValue_cons]
      rw [if_neg hns, if_neg hnm]
      refine ⟨hv, ?_⟩
      rw [hd]
      omega

/-! ## Accessors on number literals and strings -/

theorem Int64_Number (h : Host) (s : String) :
    Json.Int64 h ⟨Data.Number s⟩ = ParseInt s 64 := rfl

theorem Int_Number (h : Host) (s : String) :
    Json.Int h ⟨Data.Number s⟩ = (wrapInt64 (ParseInt s 64).1, (ParseInt s 64).2) := rfl

theorem Uint64_Number (h : Host) (s : String) :
    Json.Uint64 h ⟨Data.Number s⟩ = ParseUint s 64 := rfl

/-- The value `ParseInt` pairs with any outcome is an `int64`. -/
theorem ParseInt_fst_range (s : String) (b : Nat) (hb : b = 0 ∨ b = 64) :
    -(2 : Int) ^ 63 ≤ (ParseInt s b).1 ∧ (ParseInt s b).1 < 2 ^ 63 := by
  rcases ParseInt_cases s b hb with ⟨hr, -⟩ | ⟨hr, -⟩ | ⟨hr, -⟩ | ⟨hr, -, h1, h2⟩
  · rw [hr]; norm_num
  · rw [hr]; norm_num
  · rw [hr]; norm_num
  · rw [hr]
    refine ⟨h1, ?_⟩
    show decimalValue s.data < 2 ^ 63
    omega

theorem ParseInt_FormatInt (n : Int) (b : Nat) (hb : b = 0 ∨ b = 64)
    (h1 : -(2 : Int) ^ 63 ≤ n) (h2 : n ≤ 2 ^ 63 - 1) :
    ParseInt (FormatInt n) b = (n, none) := by
  obtain ⟨hv, hd⟩ := FormatInt_decimal n
  rcases ParseInt_cases (FormatInt n) b hb with ⟨-, hno⟩ | ⟨-, hno⟩ | ⟨-, hno⟩ | ⟨hr, -⟩
  · exact absurd ⟨hv, by rw [hd]; exact ⟨h1, h2⟩⟩ hno
  · exact absurd ⟨hv, by rw [hd]; exact ⟨h1, h2⟩⟩ hno
  · exact absurd ⟨hv, by rw [hd]; exact ⟨h1, h2⟩⟩ hno
  · rw [hr, hd]

theorem FormatInt_natCast (n : Nat) : FormatInt (n : Int) = Nat.repr n := by
  unfold FormatInt
  rw [if_neg (by omega)]
  rfl

theorem ParseUint_FormatInt (n : Nat) (b : Nat) (hb : b = 0 ∨ b = 64)
    (hn : n ≤ 2 ^ 64 - 1) : ParseUint (FormatInt (n : Int)) b = (n, none) := by
  rw [FormatInt_natCast]
  obtain ⟨hv, hd⟩ := repr_decimal n
  norm_num at hn
  rcases ParseUint_cases (Nat.repr n) b hb with ⟨-, hno⟩ | ⟨-, hno⟩ | ⟨hr, -⟩
  · exact absurd ⟨hv, by rw [hd]; exact hn⟩ hno
  · exact absurd ⟨hv, by rw [hd]; exact hn⟩ hno
  · rw [hr, hd]

/-! ## The value `ParseInt` returns next to a range error -/

/-- C1: for every native integer of any signed or unsigned width, `Int64` returns no
error; a signed value is returned unchanged (it fits in `int64`), an unsigned value `u`
is returned as `u` when `u < 2^63` and as `u - 2^64` otherwise, which is `int64(u)`. -/
theorem Int64_native_integer (h : Host) (d : Data) (hwf : d.WF) :
    (∀ n : Int, d.signedValue = some n →
        Json.Int64 h ⟨d⟩ = (n, none) ∧ -(2 : Int) ^ 63 ≤ n ∧ n < 2 ^ 63)
    ∧ (∀ u : Nat, d.unsignedValue = some u →
        Json.Int64 h ⟨d⟩ = (if u < 2 ^ 63 then (u : Int) else (u : Int) - 2 ^ 64, none)) := by
  constructor
  · intro n hn
    cases d <;> simp only [Data.signedValue, Option.some.injEq, reduceCtorEq] at hn <;>
      subst hn <;> simp only [Data.WF] at hwf <;>
      refine ⟨rfl, ?_⟩ <;> norm_num at hwf ⊢ <;> omega
  · intro u hu
    cases d <;> simp only [Data.unsignedValue, Option.some.injEq, reduceCtorEq] at hu <;>
      subst hu <;> simp only [Data.WF] at hwf <;>
      simp only [Json.Int64] <;>
      rw [wrapInt64_of_nat _ (lt_of_lt_of_le hwf (by norm_num))]

/-- C1, at the largest `uint64`: `Int64` returns `-1` and no error. -/
theorem Int64_native_integer_witness :
    (Data.uint64 18446744073709551615).WF
    ∧ Json.Int64 Host.trivial ⟨Data.uint64 18446744073709551615⟩
        = (if 18446744073709551615 < 2 ^ 63 then ((18446744073709551615 : Nat) : Int)
            else ((18446744073709551615 : Nat) : Int) - 2 ^ 64, none) :=
  ⟨by simp [Data.WF],
    (Int64_native_integer Host.trivial (Data.uint64 18446744073709551615)
      (by simp [Data.WF])).2 18446744073709551615 rfl⟩

/-- C2: for every integer `n` with `-2^63 <= n <= 2^63-1`, `Int64` and `Int` on the
number literal whose text is the canonical base-10 text of `n` both return `n` and no
error. -/
theorem Number_Int64_Int_roundtrip (h : Host) (n : Int) (h1 : -(2 : Int) ^ 63 ≤ n)
    (h2 : n ≤ 2 ^ 63 - 1) :
    Json.Int64 h ⟨Data.Number (FormatInt n)⟩ = (n, none)
    ∧ Json.Int h ⟨Data.Number (FormatInt n)⟩ = (n, none) := by
  have hp := ParseInt_FormatInt n 64 (Or.inr rfl) h1 h2
  refine ⟨by rw [Int64_Number, hp], ?_⟩
  rw [Int_Number, hp]
  simp only [Prod.mk.injEq, and_true]
  exact wrapInt64_of_range n h1 (by omega)

/-- C2, at the text "123": both accessors return 123. -/
theorem Number_Int64_Int_roundtrip_witness :
    FormatInt 123 = "123"
    ∧ Json.Int64 Host.trivial ⟨Data.Number (FormatInt 123)⟩ = (123, none)
    ∧ Json.Int Host.trivial ⟨Data.Number (FormatInt 123)⟩ = (123, none) :=
  ⟨by decide, Number_Int64_Int_roundtrip Host.trivial 123 (by decide) (by decide)⟩

/-- C3: for every natural number `n <= 2^64-1`, `Uint64` on the number literal whose
text is the canonical base-10 text of `n` returns `n` and no error, also above
`2^63-1`. -/
theorem Number_Uint64_roundtrip (h : Host) (n : Nat) (hn : n ≤ 2 ^ 64 - 1) :
    Json.Uint64 h ⟨Data.Number (FormatInt (n : Int))⟩ = (n, none) := by
  rw [Uint64_Number]
  exact ParseUint_FormatInt n 64 (Or.inr rfl) hn

/-- C3, at the text "18446744073709551615". -/
theorem Number_Uint64_roundtrip_witness :
    FormatInt ((18446744073709551615 : Nat) : Int) = "18446744073709551615"
    ∧ Json.Uint64 Host.trivial ⟨Data.Number (FormatInt ((18446744073709551615 : Nat) : Int))⟩
        = (18446744073709551615, none) :=
  ⟨by decide, Number_Uint64_roundtrip Host.trivial 18446744073709551615 (by decide)⟩

/-- C4: for every number literal whose text begins with `-`, `Uint64` returns an error
(the syntax error of `ParseUint` on that text) and the value 0, not a wrapped value. -/
theorem Number_Uint64_rejects_minus (h : Host) (s : String)
    (hs : s.data.head? = some '-') :
    Json.Uint64 h ⟨Data.Number s⟩ = (0, some (syntaxError "ParseUint" s)) := by
  rw [Uint64_Number, ParseUint_eq_loop s 64 (Or.inr rfl)]
  cases hd : s.data with
  | nil => simp
  | cons c cs =>
    rw [hd] at hs
    simp only [List.head?_cons, Option.some.injEq] at hs
    subst hs
    rw [if_neg (by simp)]
    exact parseUintLoop_not_digit s _ _ '-' cs 0 (by decide)

/-- C4, at the texts "-5" and "-0". -/
theorem Number_Uint64_rejects_minus_witness :
    Json.Uint64 Host.trivial ⟨Data.Number "-5"⟩ = (0, some (syntaxError "ParseUint" "-5"))
    ∧ Json.Uint64 Host.trivial ⟨Data.Number "-0"⟩ = (0, some (syntaxError "ParseUint" "-0")) :=
  ⟨Number_Uint64_rejects_minus Host.trivial "-5" (by decide),
    Number_Uint64_rejects_minus Host.trivial "-0" (by decide)⟩

/-- C5: `Int64` on a number literal succeeds if and only if the text is a valid base-10
integer (an optional sign followed by one or more ASCII digits) whose value lies in
`[-2^63, 2^63-1]`, and it then returns exactly that value. -/
theorem Number_Int64_exact (h : Host) (s : String) :
    ((Json.Int64 h ⟨Data.Number s⟩).2 = none ↔
        (isDecimalInteger s.data = true ∧ -(2 : Int) ^ 63 ≤ decimalValue s.data
          ∧ decimalValue s.data ≤ 2 ^ 63 - 1))
    ∧ ((Json.Int64 h ⟨Data.Number s⟩).2 = none →
        (Json.Int64 h ⟨Data.Number s⟩).1 = decimalValue s.data) := by
  rw [Int64_Number]
  rcases ParseInt_cases s 64 (Or.inr rfl) with ⟨hr, hno⟩ | ⟨hr, hno⟩ | ⟨hr, hno⟩ | ⟨hr, hyes⟩
  · rw [hr]
    exact ⟨⟨fun hn => by simp at hn, fun hv => absurd hv hno⟩, fun hn => by simp at hn⟩
  · rw [hr]
    exact ⟨⟨fun hn => by simp at hn, fun hv => absurd hv hno⟩, fun hn => by simp at hn⟩
  · rw [hr]
    exact ⟨⟨fun hn => by simp at hn, fun hv => absurd hv hno⟩, fun hn => by simp at hn⟩
  · rw [hr]
    exact ⟨⟨fun _ => hyes, fun _ => rfl⟩, fun _ => rfl⟩

/-- C5, at the texts "1.5", "1e3" and "9223372036854775808", which fail, and at "-42",
which gives -42. -/
theorem Number_Int64_exact_witness :
    (Json.Int64 Host.trivial ⟨Data.Number "1.5"⟩).2 ≠ none
    ∧ (Json.Int64 Host.trivial ⟨Data.Number "1e3"⟩).2 ≠ none
    ∧ (Json.Int64 Host.trivial ⟨Data.Number "9223372036854775808"⟩).2 ≠ none
    ∧ (Json.Int64 Host.trivial ⟨Data.Number "-42"⟩).1 = decimalValue "-42".data :=
  ⟨mt (Number_Int64_exact Host.trivial "1.5").1.mp (by decide),
    mt (Number_Int64_exact Host.trivial "1e3").1.mp (by decide),
    mt (Number_Int64_exact Host.trivial "9223372036854775808").1.mp (by decide),
    (Number_Int64_exact Host.trivial "-42").2 (by decide)⟩

/-- C6: on a boolean, null, sequence or mapping, each of `Float64`, `Int`, `Int64` and
`Uint64` returns the zero value and the same error "invalid value type". -/
theorem invalid_kinds_same_error (h : Host) :
    (∀ b : Bool,
        Json.Float64 h ⟨Data.bool b⟩ = (GoFloat.zero, some (Error.errorString "invalid value type"))
        ∧ Json.Int h ⟨Data.bool b⟩ = (0, some (Error.errorString "invalid value type"))
        ∧ Json.Int64 h ⟨Data.bool b⟩ = (0, some (Error.errorString "invalid value type"))
        ∧ Json.Uint64 h ⟨Data.bool b⟩ = (0, some (Error.errorString "invalid value type")))
    ∧ (Json.Float64 h ⟨Data.null⟩ = (GoFloat.zero, some (Error.errorString "invalid value type"))
        ∧ Json.Int h ⟨Data.null⟩ = (0, some (Error.errorString "invalid value type"))
        ∧ Json.Int64 h ⟨Data.null⟩ = (0, some (Error.errorString "invalid value type"))
        ∧ Json.Uint64 h ⟨Data.null⟩ = (0, some (Error.errorString "invalid value type")))
    ∧ (∀ xs : List Data,
        Json.Float64 h ⟨Data.array xs⟩ = (GoFloat.zero, some (Error.errorString "invalid value type"))
        ∧ Json.Int h ⟨Data.array xs⟩ = (0, some (Error.errorString "invalid value type"))
        ∧ Json.Int64 h ⟨Data.array xs⟩ = (0, some (Error.errorString "invalid value type"))
        ∧ Json.Uint64 h ⟨Data.array xs⟩ = (0, some (Error.errorString "invalid value type")))
    ∧ (∀ kvs : List (String × Data),
        Json.Float64 h ⟨Data.object kvs⟩
          = (GoFloat.zero, some (Error.errorString "invalid value type"))
        ∧ Json.Int h ⟨Data.object kvs⟩ = (0, some (Error.errorString "invalid value type"))
        ∧ Json.Int64 h ⟨Data.object kvs⟩ = (0, some (Error.errorString "invalid value type"))
        ∧ Json.Uint64 h ⟨Data.object kvs⟩ = (0, some (Error.errorString "invalid value type"))) :=
  ⟨fun _ => ⟨rfl, rfl, rfl, rfl⟩, ⟨rfl, rfl, rfl, rfl⟩, fun _ => ⟨rfl, rfl, rfl, rfl⟩,
    fun _ => ⟨rfl, rfl, rfl, rfl⟩⟩

/-- The accessor `Int64` on a string, in terms of `ParseInt(str, 10, 0)`. -/
theorem Int64_string (h : Host) (s : String) :
    Json.Int64 h ⟨Data.string s⟩
      = if (ParseInt s 0).2 = none then ((ParseInt s 0).1, none)
        else (0, some invalidValueType) := by
  simp only [Json.Int64, int64FromString]
  rcases hp : ParseInt s 0 with ⟨v, _ | e⟩ <;> simp

/-- The accessor `Int` on a string, in terms of `Atoi(str)`. -/
theorem Int_string (h : Host) (s : String) :
    Json.Int h ⟨Data.string s⟩
      = if (Atoi s).2 = none then ((Atoi s).1, none) else (0, some invalidValueType) := by
  simp only [Json.Int, intFromString]
  rcases hp : Atoi s with ⟨v, _ | e⟩ <;> simp

/-- The accessor `Uint64` on a string, in terms of `ParseUint(str, 10, 0)`. -/
theorem Uint64_string (h : Host) (s : String) :
    Json.Uint64 h ⟨Data.string s⟩
      = if (ParseUint s 0).2 = none then ((ParseUint s 0).1, none)
        else (0, some invalidValueType) := by
  simp only [Json.Uint64, uint64FromString]
  rcases hp : ParseUint s 0 with ⟨v, _ | e⟩ <;> simp

/-- The accessor `Float64` on a string, in terms of `ParseFloat(str, 64)`. -/
theorem Float64_string (h : Host) (s : String) :
    Json.Float64 h ⟨Data.string s⟩
      = if (h.ParseFloat s).2 = none then ((h.ParseFloat s).1, none)
        else (GoFloat.zero, some invalidValueType) := by
  simp only [Json.Float64, floatFromString]
  rcases hp : h.ParseFloat s with ⟨v, _ | e⟩ <;> simp

/-- C8 as stated fails at the string "abc" requested via `Int64`: the parser's
diagnostic is a syntax error of `ParseInt`, but the caller receives the generic
error. -/
theorem string_Int64_diagnostic_replaced :
    (int64FromString (Data.string "abc")).2 = some (syntaxError "ParseInt" "abc")
    ∧ (Json.Int64 Host.trivial ⟨Data.string "abc"⟩).2
        = some (Error.errorString "invalid value type")
    ∧ (Json.Int64 Host.trivial ⟨Data.string "abc"⟩).2
        ≠ (int64FromString (Data.string "abc")).2 := by
  decide

/-- C8, amended: for every string value on which the parser of the requested target
type fails, the accessor fails too, with the zero value and the generic error
"invalid value type" in place of the parser's diagnostic. -/
theorem string_parse_failure_generic (h : Host) (s : String) :
    ((h.ParseFloat s).2 ≠ none →
        Json.Float64 h ⟨Data.string s⟩
          = (GoFloat.zero, some (Error.errorString "invalid value type")))
    ∧ ((Atoi s).2 ≠ none →
        Json.Int h ⟨Data.string s⟩ = (0, some (Error.errorString "invalid value type")))
    ∧ ((ParseInt s 0).2 ≠ none →
        Json.Int64 h ⟨Data.string s⟩ = (0, some (Error.errorString "invalid value type")))
    ∧ ((ParseUint s 0).2 ≠ none →
        Json.Uint64 h ⟨Data.string s⟩ = (0, some (Error.errorString "invalid value type")))
    ∧ (¬ (isDecimalInteger s.data = true ∧ -(2 : Int) ^ 63 ≤ decimalValue s.data
            ∧ decimalValue s.data ≤ 2 ^ 63 - 1) →
        Json.Int64 h ⟨Data.string s⟩ = (0, some (Error.errorString "invalid value type"))) := by
  refine ⟨fun hf => ?_, fun hf => ?_, fun hf => ?_, fun hf => ?_, fun hbad => ?_⟩
  · rw [Float64_string, if_neg hf]; rfl
  · rw [Int_string, if_neg hf]; rfl
  · rw [Int64_string, if_neg hf]; rfl
  · rw [Uint64_string, if_neg hf]; rfl
  · have hf : (ParseInt s 0).2 ≠ none := by
      rcases ParseInt_cases s 0 (Or.inl rfl) with ⟨hr, -⟩ | ⟨hr, -⟩ | ⟨hr, -⟩ | ⟨-, hyes⟩
      · rw [hr]; simp
      · rw [hr]; simp
      · rw [hr]; simp
      · exact absurd hyes hbad
    rw [Int64_string, if_neg hf]; rfl

/-- C8, amended, at the string "abc" for the four accessors. -/
theorem string_parse_failure_generic_witness :
    Json.Float64 Host.trivial ⟨Data.string "abc"⟩
        = (GoFloat.zero, some (Error.errorString "invalid value type"))
    ∧ Json.Int Host.trivial ⟨Data.string "abc"⟩
        = (0, some (Error.errorString "invalid value type"))
    ∧ Json.Int64 Host.trivial ⟨Data.string "abc"⟩
        = (0, some (Error.errorString "invalid value type"))
    ∧ Json.Uint64 Host.trivial ⟨Data.string "abc"⟩
        = (0, some (Error.errorString "invalid value type"))
    ∧ Json.Int64 Host.trivial ⟨Data.string "1.5"⟩
        = (0, some (Error.errorString "invalid value type")) :=
  ⟨(string_parse_failure_generic Host.trivial "abc").1 (by decide),
    (string_parse_failure_generic Host.trivial "abc").2.1 (by decide),
    (string_parse_failure_generic Host.trivial "abc").2.2.1 (by decide),
    (string_parse_failure_generic Host.trivial "abc").2.2.2.1 (by decide),
    (string_parse_failure_generic Host.trivial "1.5").2.2.2.2 (by decide)⟩

/-- C9: for every number literal whose text is not a valid literal of the integer
target type, `Int`, `Int64` and `Uint64` return exactly the error of the base-10 parser
(`ParseInt(s, 10, 64)`, resp. `ParseUint(s, 10, 64)`): a syntax or range error naming the
parser and the text, never the generic "invalid value type" error. -/
theorem Number_error_is_parser_error (h : Host) (s : String) :
    (¬ (isDecimalInteger s.data = true ∧ -(2 : Int) ^ 63 ≤ decimalValue s.data
          ∧ decimalValue s.data ≤ 2 ^ 63 - 1) →
      ∃ e, (ParseInt s 64).2 = some e
        ∧ (Json.Int h ⟨Data.Number s⟩).2 = some e
        ∧ (Json.Int64 h ⟨Data.Number s⟩).2 = some e
        ∧ (e = syntaxError "ParseInt" s ∨ e = rangeError "ParseInt" s)
        ∧ e ≠ Error.errorString "invalid value type")
    ∧ (¬ (isDecimalNat s.data = true ∧ digitsValue s.data 0 ≤ 2 ^ 64 - 1) →
      ∃ e, (ParseUint s 64).2 = some e
        ∧ (Json.Uint64 h ⟨Data.Number s⟩).2 = some e
        ∧ (e = syntaxError "ParseUint" s ∨ e = rangeError "ParseUint" s)
        ∧ e ≠ Error.errorString "invalid value type") := by
  constructor
  · intro hbad
    rw [Int_Number, Int64_Number]
    rcases ParseInt_cases s 64 (Or.inr rfl) with ⟨hr, -⟩ | ⟨hr, -⟩ | ⟨hr, -⟩ | ⟨-, hyes⟩
    · exact ⟨_, by rw [hr], by rw [hr], by rw [hr], Or.inl rfl, by simp [syntaxError]⟩
    · exact ⟨_, by rw [hr], by rw [hr], by rw [hr], Or.inr rfl, by simp [rangeError]⟩
    · exact ⟨_, by rw [hr], by rw [hr], by rw [hr], Or.inr rfl, by simp [rangeError]⟩
    · exact absurd hyes hbad
  · intro hbad
    rw [Uint64_Number]
    rcases ParseUint_cases s 64 (Or.inr rfl) with ⟨hr, -⟩ | ⟨hr, -⟩ | ⟨-, hyes⟩
    · exact ⟨_, by rw [hr], by rw [hr], Or.inl rfl, by simp [syntaxError]⟩
    · exact ⟨_, by rw [hr], by rw [hr], Or.inr rfl, by simp [rangeError]⟩
    · exact absurd hyes (by norm_num at hbad ⊢; exact hbad)

/-- C9, at the texts "1.5" (not an integer) and "18446744073709551616" (out of
range). -/
theorem Number_error_is_parser_error_witness :
    (∃ e, (ParseInt "1.5" 64).2 = some e
        ∧ (Json.Int Host.trivial ⟨Data.Number "1.5"⟩).2 = some e
        ∧ (Json.Int64 Host.trivial ⟨Data.Number "1.5"⟩).2 = some e
        ∧ (e = syntaxError "ParseInt" "1.5" ∨ e = rangeError "ParseInt" "1.5")
        ∧ e ≠ Error.errorString "invalid value type")
    ∧ (∃ e, (ParseUint "18446744073709551616" 64).2 = some e
        ∧ (Json.Uint64 Host.trivial ⟨Data.Number "18446744073709551616"⟩).2 = some e
        ∧ (e = syntaxError "ParseUint" "18446744073709551616"
            ∨ e = rangeError "ParseUint" "18446744073709551616")
        ∧ e ≠ Error.errorString "invalid value type") :=
  ⟨(Number_error_is_parser_error Host.trivial "1.5").1 (by decide),
    (Number_error_is_parser_error Host.trivial "18446744073709551616").2 (by decide)⟩

theorem length_le_utf8ByteSize_go (cs : List Char) :
    cs.length ≤ String.utf8ByteSize.go cs := by
  induction cs with
  | nil => simp [String.utf8ByteSize.go]
  | cons c cs ih =>
    have := Char.utf8Size_pos c
    simp only [String.utf8ByteSize.go, List.length_cons]
    omega

/-- A text has at most as many characters as bytes. -/
theorem length_le_utf8ByteSize (s : String) : s.data.length ≤ s.utf8ByteSize := by
  cases s with
  | mk cs => exact length_le_utf8ByteSize_go cs

theorem utf8ByteSize_pos_ne_nil (s : String) (h : 0 < s.utf8ByteSize) : s.data ≠ [] := by
  cases s with
  | mk cs =>
    intro hnil
    simp only at hnil
    subst hnil
    simp [String.utf8ByteSize, String.utf8ByteSize.go] at h

/-- A run of `k` digits read from `n` stays below `(n + 1) * 10^k`. -/
theorem digitsValue_lt (cs : List Char) (n : Nat) (hall : cs.all isDigit = true) :
    digitsValue cs n < (n + 1) * 10 ^ cs.length := by
  induction cs generalizing n with
  | nil => simp [digitsValue]
  | cons c cs ih =>
    simp only [List.all_cons, Bool.and_eq_true] at hall
    have hd := (digitVal_of_digit c hall.1).2
    have h1 := ih (n * 10 + (c.toNat - 48)) hall.2
    have h2 : (n * 10 + (c.toNat - 48) + 1) * 10 ^ cs.length
        ≤ ((n + 1) * 10) * 10 ^ cs.length :=
      Nat.mul_le_mul_right _ (by omega)
    rw [digitsValue_cons, List.length_cons, pow_succ]
    calc digitsValue cs (n * 10 + (c.toNat - 48))
        < (n * 10 + (c.toNat - 48) + 1) * 10 ^ cs.length := h1
      _ ≤ ((n + 1) * 10) * 10 ^ cs.length := h2
      _ = (n + 1) * (10 ^ cs.length * 10) := by ring

/-- At most 18 digits denote a number below `10^18`. -/
theorem digitsValue_lt_of_length (cs : List Char) (hall : cs.all isDigit = true)
    (hlen : cs.length ≤ 18) : digitsValue cs 0 < 10 ^ 18 := by
  have h1 := digitsValue_lt cs 0 hall
  have h2 : 10 ^ cs.length ≤ 10 ^ 18 := Nat.pow_le_pow_right (by norm_num) hlen
  omega

theorem atoiLoop_all_digits (s0 : String) (cs : List Char) (m : Nat)
    (hall : cs.all isDigit = true) (hb : digitsValue cs m < 2 ^ 63) :
    atoiLoop s0 cs (m : Int)
      = (if s0.data.head? = some '-' then wrapInt64 (-((digitsValue cs m : Nat) : Int))
          else ((digitsValue cs m : Nat) : Int), none) := by
  induction cs generalizing m with
  | nil => rfl
  | cons c cs ih =>
    simp only [List.all_cons, Bool.and_eq_true] at hall
    have hc : 48 ≤ c.toNat ∧ c.toNat ≤ 57 := by
      simpa [isDigit] using hall.1
    rw [digitsValue_cons] at hb ⊢
    have hle := le_digitsValue cs (m * 10 + (c.toNat - 48))
    have hw : wrapInt64 ((m : Int) * 10 + ((c.toNat - 48 : Nat) : Int))
        = ((m * 10 + (c.toNat - 48) : Nat) : Int) := by
      rw [wrapInt64_of_range]
      · push_cast; rfl
      · norm_num; omega
      · norm_num at hb ⊢; omega
    rw [atoiLoop, if_pos hc, hw]
    exact ih _ hall.2 hb

theorem atoiLoop_not_all_digits (s0 : String) (cs : List Char) (n : Int)
    (hbad : cs.all isDigit = false) :
    atoiLoop s0 cs n = (0, some (syntaxError "Atoi" s0)) := by
  induction cs generalizing n with
  | nil => simp at hbad
  | cons c cs ih =>
    by_cases hc : 48 ≤ c.toNat ∧ c.toNat ≤ 57
    · have hd : isDigit c = true := by simp [isDigit, hc]
      rw [atoiLoop, if_pos hc]
      apply ih
      simpa [hd] using hbad
    · rw [atoiLoop, if_neg hc]

theorem Atoi_fast_eq (s : String) (c : Char) (rest : List Char) (hs : s.data = c :: rest)
    (h0 : 0 < s.utf8ByteSize) (h1 : s.utf8ByteSize < 19) :
    Atoi s = if c = '-' ∨ c = '+' then
        (if rest.length < 1 then (0, some (syntaxError "Atoi" s)) else atoiLoop s rest 0)
      else atoiLoop s (c :: rest) 0 := by
  have hcond : (IntSize = 32 ∧ 0 < s.utf8ByteSize ∧ s.utf8ByteSize < 10)
      ∨ (IntSize = 64 ∧ 0 < s.utf8ByteSize ∧ s.utf8ByteSize < 19) :=
    Or.inr ⟨rfl, h0, h1⟩
  simp only [Atoi, if_pos hcond, hs]

theorem Atoi_slow_eq (s : String) (h : ¬ (0 < s.utf8ByteSize ∧ s.utf8ByteSize < 19)) :
    Atoi s = match ParseInt s 0 with
      | (i64, some (Error.NumError _ num err)) =>
        (wrapInt64 i64, some (Error.NumError "Atoi" num err))
      | (i64, err) => (wrapInt64 i64, err) := by
  have hcond : ¬ ((IntSize = 32 ∧ 0 < s.utf8ByteSize ∧ s.utf8ByteSize < 10)
      ∨ (IntSize = 64 ∧ 0 < s.utf8ByteSize ∧ s.utf8ByteSize < 19)) := by
    rintro (⟨h32, -⟩ | ⟨-, h2⟩)
    · exact absurd h32 (by decide)
    · exact h h2
  simp only [Atoi, if_neg hcond]

/-- The fast-path loop on a non-empty body of at most 18 characters. -/
theorem atoiLoop_body (s : String) (body : List Char) (hne : body ≠ [])
    (hlen : body.length ≤ 18) :
    atoiLoop s body 0
      = if isDecimalNat body = true then
          (if s.data.head? = some '-' then -((digitsValue body 0 : Nat) : Int)
            else ((digitsValue body 0 : Nat) : Int), none)
        else (0, some (syntaxError "Atoi" s)) := by
  have hemp : body.isEmpty = false := by
    cases body with
    | nil => exact absurd rfl hne
    | cons c cs => rfl
  cases hall : body.all isDigit with
  | false =>
    have hv : isDecimalNat body = false := by simp [isDecimalNat, hall]
    rw [hv, atoiLoop_not_all_digits s body 0 hall]
    simp
  | true =>
    have hv : isDecimalNat body = true := by simp [isDecimalNat, hall, hemp]
    have hlt := digitsValue_lt_of_length body hall hlen
    have hb : digitsValue body 0 < 2 ^ 63 := by norm_num at hlt ⊢; omega
    have hloop := atoiLoop_all_digits s body 0 hall hb
    rw [Nat.cast_zero] at hloop
    have hw : wrapInt64 (-((digitsValue body 0 : Nat) : Int))
        = -((digitsValue body 0 : Nat) : Int) := by
      apply wrapInt64_of_range
      · norm_num at hb ⊢; omega
      · norm_num at hb ⊢; omega
    rw [hloop, hw, hv]
    simp

/-- The result of the fast path, once the loop has run, is one of the outcomes of
`Atoi`. -/
theorem atoi_fast_outcome (s : String) (c : Char) (body : List Char)
    (hhead : s.data.head? = some '-' ↔ c = '-') (hlen : body.length ≤ 18)
    (r : int64 × Option Error)
    (hr : r = if isDecimalNat body = true then
          (if s.data.head? = some '-' then -((digitsValue body 0 : Nat) : Int)
            else ((digitsValue body 0 : Nat) : Int), none)
        else (0, some (syntaxError "Atoi" s))) :
    (r = (0, some (syntaxError "Atoi" s))
        ∧ ¬ (isDecimalNat body = true
              ∧ -(2 : Int) ^ 63 ≤ (if c = '-' then -((digitsValue body 0 : Nat) : Int)
                  else ((digitsValue body 0 : Nat) : Int))
              ∧ (if c = '-' then -((digitsValue body 0 : Nat) : Int)
                  else ((digitsValue body 0 : Nat) : Int)) ≤ 2 ^ 63 - 1))
    ∨ (r = ((if c = '-' then -((digitsValue body 0 : Nat) : Int)
              else ((digitsValue body 0 : Nat) : Int)), none)
        ∧ isDecimalNat body = true
        ∧ -(2 : Int) ^ 63 ≤ (if c = '-' then -((digitsValue body 0 : Nat) : Int)
            else ((digitsValue body 0 : Nat) : Int))
        ∧ (if c = '-' then -((digitsValue body 0 : Nat) : Int)
            else ((digitsValue body 0 : Nat) : Int)) ≤ 2 ^ 63 - 1) := by
  by_cases hv : isDecimalNat body = true
  · right
    have hall : body.all isDigit = true := by
      simp only [isDecimalNat, Bool.and_eq_true] at hv
      exact hv.2
    have hlt := digitsValue_lt_of_length body hall hlen
    rw [if_pos hv] at hr
    by_cases hneg : c = '-'
    · rw [if_pos (hhead.mpr hneg)] at hr
      rw [if_pos hneg]
      refine ⟨hr, hv, ?_, ?_⟩ <;> norm_num at hlt ⊢ <;> omega
    · rw [if_neg (fun h => hneg (hhead.mp h))] at hr
      rw [if_neg hneg]
      refine ⟨hr, hv, ?_, ?_⟩ <;> norm_num at hlt ⊢ <;> omega
  · left
    rw [if_neg hv] at hr
    exact ⟨hr, fun h => hv h.1⟩

/-- The four outcomes of `Atoi(s)`, the same as those of `ParseInt(s, 10, 0)` with the
function name `Atoi` in the error. -/
theorem Atoi_cases (s : String) :
    (Atoi s = (0, some (syntaxError "Atoi" s))
        ∧ ¬ (isDecimalInteger s.data = true ∧ -(2 : Int) ^ 63 ≤ decimalValue s.data
              ∧ decimalValue s.data ≤ 2 ^ 63 - 1))
    ∨ (Atoi s = (2 ^ 63 - 1, some (rangeError "Atoi" s))
        ∧ ¬ (isDecimalInteger s.data = true ∧ -(2 : Int) ^ 63 ≤ decimalValue s.data
              ∧ decimalValue s.data ≤ 2 ^ 63 - 1))
    ∨ (Atoi s = (-(2 : Int) ^ 63, some (rangeError "Atoi" s))
        ∧ ¬ (isDecimalInteger s.data = true ∧ -(2 : Int) ^ 63 ≤ decimalValue s.data
              ∧ decimalValue s.data ≤ 2 ^ 63 - 1))
    ∨ (Atoi s = (decimalValue s.data, none)
        ∧ isDecimalInteger s.data = true ∧ -(2 : Int) ^ 63 ≤ decimalValue s.data
        ∧ decimalValue s.data ≤ 2 ^ 63 - 1) := by
  by_cases hfast : 0 < s.utf8ByteSize ∧ s.utf8ByteSize < 19
  · obtain ⟨h0, h1⟩ := hfast
    have hlen := length_le_utf8ByteSize s
    cases hs : s.data with
    | nil => exact absurd hs (utf8ByteSize_pos_ne_nil s h0)
    | cons c rest =>
      rw [hs, List.length_cons] at hlen
      rw [Atoi_fast_eq s c rest hs h0 h1, isDecimalInteger_cons, decimalValue_cons]
      have hhead : (s.data.head? = some '-') ↔ c = '-' := by
        rw [hs]; simp
      by_cases hsign : c = '+' ∨ c = '-'
      · have hsign2 : c = '-' ∨ c = '+' := hsign.symm
        rw [if_pos hsign2, if_pos hsign]
        cases hr : rest with
        | nil =>
          left
          simp [isDecimalNat]
        | cons r rs =>
          rw [← hr]
          have hne : rest ≠ [] := by rw [hr]; simp
          have hnl : ¬ rest.length < 1 := by rw [hr]; simp
          rw [if_neg hnl]
          rcases atoi_fast_outcome s c rest hhead (by omega) _
              (atoiLoop_body s rest hne (by omega)) with h | h
          · exact Or.inl h
          · exact Or.inr (Or.inr (Or.inr h))
      · have hsign2 : ¬ (c = '-' ∨ c = '+') := fun h => hsign h.symm
        rw [if_neg hsign2, if_neg hsign]
        have hnm : ¬ c = '-' := fun h => hsign (Or.inr h)
        rcases atoi_fast_outcome s c (c :: rest) hhead (by simp; omega) _
            (atoiLoop_body s (c :: rest) (by simp) (by simp; omega)) with h | h
        · exact Or.inl h
        · exact Or.inr (Or.inr (Or.inr h))
  · rw [Atoi_slow_eq s hfast]
    rcases ParseInt_cases s 0 (Or.inl rfl) with ⟨hr, hno⟩ | ⟨hr, hno⟩ | ⟨hr, hno⟩ | ⟨hr, hyes⟩
    · left
      rw [hr]
      exact ⟨by simp [syntaxError, wrapInt64], hno⟩
    · right; left
      rw [hr]
      exact ⟨by simp [rangeError, wrapInt64], hno⟩
    · right; right; left
      rw [hr]
      exact ⟨by simp [rangeError, wrapInt64], hno⟩
    · right; right; right
      rw [hr]
      refine ⟨?_, hyes⟩
      simp only [Prod.mk.injEq, and_true]
      exact wrapInt64_of_range _ hyes.2.1 (by have := hyes.2.2; omega)

/-! ## Success of the three parsers in the words of the specification -/

theorem ParseInt_ok (s : String) (b : Nat) (hb : b = 0 ∨ b = 64) :
    ((ParseInt s b).2 = none ↔
        (isDecimalInteger s.data = true ∧ -(2 : Int) ^ 63 ≤ decimalValue s.data
          ∧ decimalValue s.data ≤ 2 ^ 63 - 1))
    ∧ ((ParseInt s b).2 = none → ParseInt s b = (decimalValue s.data, none)) := by
  rcases ParseInt_cases s b hb with ⟨hr, hno⟩ | ⟨hr, hno⟩ | ⟨hr, hno⟩ | ⟨hr, hyes⟩
  · rw [hr]
    exact ⟨⟨fun hn => by simp at hn, fun hv => absurd hv hno⟩, fun hn => by simp at hn⟩
  · rw [hr]
    exact ⟨⟨fun hn => by simp at hn, fun hv => absurd hv hno⟩, fun hn => by simp at hn⟩
  · rw [hr]
    exact ⟨⟨fun hn => by simp at hn, fun hv => absurd hv hno⟩, fun hn => by simp at hn⟩
  · rw [hr]
    exact ⟨⟨fun _ => hyes, fun _ => rfl⟩, fun _ => rfl⟩

theorem Atoi_ok (s : String) :
    ((Atoi s).2 = none ↔
        (isDecimalInteger s.data = true ∧ -(2 : Int) ^ 63 ≤ decimalValue s.data
          ∧ decimalValue s.data ≤ 2 ^ 63 - 1))
    ∧ ((Atoi s).2 = none → Atoi s = (decimalValue s.data, none)) := by
  rcases Atoi_cases s with ⟨hr, hno⟩ | ⟨hr, hno⟩ | ⟨hr, hno⟩ | ⟨hr, hyes⟩
  · rw [hr]
    exact ⟨⟨fun hn => by simp at hn, fun hv => absurd hv hno⟩, fun hn => by simp at hn⟩
  · rw [hr]
    exact ⟨⟨fun hn => by simp at hn, fun hv => absurd hv hno⟩, fun hn => by simp at hn⟩
  · rw [hr]
    exact ⟨⟨fun hn => by simp at hn, fun hv => absurd hv hno⟩, fun hn => by simp at hn⟩
  · rw [hr]
    exact ⟨⟨fun _ => hyes, fun _ => rfl⟩, fun _ => rfl⟩

theorem ParseUint_ok (s : String) (b : Nat) (hb : b = 0 ∨ b = 64) :
    ((ParseUint s b).2 = none ↔
        (isDecimalNat s.data = true ∧ digitsValue s.data 0 ≤ 18446744073709551615))
    ∧ ((ParseUint s b).2 = none → ParseUint s b = (digitsValue s.data 0, none)) := by
  rcases ParseUint_cases s b hb with ⟨hr, hno⟩ | ⟨hr, hno⟩ | ⟨hr, hyes⟩
  · rw [hr]
    exact ⟨⟨fun hn => by simp at hn, fun hv => absurd hv hno⟩, fun hn => by simp at hn⟩
  · rw [hr]
    exact ⟨⟨fun hn => by simp at hn, fun hv => absurd hv hno⟩, fun hn => by simp at hn⟩
  · rw [hr]
    exact ⟨⟨fun _ => hyes, fun _ => rfl⟩, fun _ => rfl⟩

/-- The helper `intFromString` and the helper `int64FromString` agree on every string:
`Atoi(s)` and `ParseInt(s, 10, 0)` succeed together, with the same value. -/
theorem Atoi_ParseInt_agree (s : String) (b : Nat) (hb : b = 0 ∨ b = 64) :
    ((Atoi s).2 = none ↔ (ParseInt s b).2 = none)
    ∧ ((Atoi s).2 = none → Atoi s = ParseInt s b) := by
  obtain ⟨ha, hav⟩ := Atoi_ok s
  obtain ⟨hp, hpv⟩ := ParseInt_ok s b hb
  refine ⟨ha.trans hp.symm, fun hn => ?_⟩
  rw [hav hn, hpv (hp.mpr (ha.mp hn))]

theorem Int_Number_eq (h : Host) (s : String) :
    Json.Int h ⟨Data.Number s⟩ = ParseInt s 64 := by
  rw [Int_Number]
  obtain ⟨h1, h2⟩ := ParseInt_fst_range s 64 (Or.inr rfl)
  rw [wrapInt64_of_range _ h1 h2]

/-- `ParseUint` has no sign handling: a text beginning with `-` is a syntax error. -/
theorem Uint64_Number_leading_minus (h : Host) (s : String)
    (hs : s.data.head? = some '-') :
    Json.Uint64 h ⟨Data.Number s⟩ = (0, some (syntaxError "ParseUint" s)) := by
  rw [Uint64_Number, ParseUint_eq_loop s 64 (Or.inr rfl)]
  cases hd : s.data with
  | nil => rw [hd] at hs; simp at hs
  | cons c cs =>
    rw [hd] at hs
    simp only [List.head?_cons, Option.some.injEq] at hs
    subst hs
    rw [if_neg (by simp)]
    exact parseUintLoop_not_digit s _ _ '-' cs 0 (by decide)

/-! ## The claims on the string fallback, floats and native integers -/

/-- C11: for every text `s` and each of `Int`, `Int64` and `Uint64`, the accessor on the
string holding `s` succeeds if and only if it succeeds on the number literal holding
`s`, and when it succeeds the two results are the same. -/
theorem string_agrees_with_Number (h : Host) (s : String) :
    (((Json.Int h ⟨Data.string s⟩).2 = none ↔ (Json.Int h ⟨Data.Number s⟩).2 = none)
      ∧ ((Json.Int h ⟨Data.string s⟩).2 = none →
          Json.Int h ⟨Data.string s⟩ = Json.Int h ⟨Data.Number s⟩))
    ∧ (((Json.Int64 h ⟨Data.string s⟩).2 = none ↔ (Json.Int64 h ⟨Data.Number s⟩).2 = none)
      ∧ ((Json.Int64 h ⟨Data.string s⟩).2 = none →
          Json.Int64 h ⟨Data.string s⟩ = Json.Int64 h ⟨Data.Number s⟩))
    ∧ (((Json.Uint64 h ⟨Data.string s⟩).2 = none ↔ (Json.Uint64 h ⟨Data.Number s⟩).2 = none)
      ∧ ((Json.Uint64 h ⟨Data.string s⟩).2 = none →
          Json.Uint64 h ⟨Data.string s⟩ = Json.Uint64 h ⟨Data.Number s⟩)) := by
  refine ⟨?_, ?_, ?_⟩
  · obtain ⟨hiff, hval⟩ := Atoi_ParseInt_agree s 64 (Or.inr rfl)
    rw [Int_string, Int_Number_eq]
    by_cases ha : (Atoi s).2 = none
    · rw [if_pos ha]
      exact ⟨⟨fun _ => hiff.mp ha, fun _ => rfl⟩,
        fun _ => by rw [← hval ha]; exact Prod.ext rfl ha.symm⟩
    · rw [if_neg ha]
      exact ⟨⟨fun hn => by simp at hn, fun hn => absurd (hiff.mpr hn) ha⟩,
        fun hn => by simp at hn⟩
  · obtain ⟨h0, h0v⟩ := ParseInt_ok s 0 (Or.inl rfl)
    obtain ⟨h64, h64v⟩ := ParseInt_ok s 64 (Or.inr rfl)
    rw [Int64_string, Int64_Number]
    by_cases ha : (ParseInt s 0).2 = none
    · have hb := h64.mpr (h0.mp ha)
      rw [if_pos ha]
      exact ⟨⟨fun _ => hb, fun _ => rfl⟩, fun _ => by rw [h64v hb, h0v ha]⟩
    · rw [if_neg ha]
      exact ⟨⟨fun hn => by simp at hn, fun hn => absurd (h0.mpr (h64.mp hn)) ha⟩,
        fun hn => by simp at hn⟩
  · obtain ⟨h0, h0v⟩ := ParseUint_ok s 0 (Or.inl rfl)
    obtain ⟨h64, h64v⟩ := ParseUint_ok s 64 (Or.inr rfl)
    rw [Uint64_string, Uint64_Number]
    by_cases ha : (ParseUint s 0).2 = none
    · have hb := h64.mpr (h0.mp ha)
      rw [if_pos ha]
      exact ⟨⟨fun _ => hb, fun _ => rfl⟩, fun _ => by rw [h64v hb, h0v ha]⟩
    · rw [if_neg ha]
      exact ⟨⟨fun hn => by simp at hn, fun hn => absurd (h0.mpr (h64.mp hn)) ha⟩,
        fun hn => by simp at hn⟩

/-- C11, at the text "-42": the string and the number literal give the same result
for `Int` and `Int64`, and both are rejected by `Uint64`. -/
theorem string_agrees_with_Number_witness :
    Json.Int Host.trivial ⟨Data.string "-42"⟩ = Json.Int Host.trivial ⟨Data.Number "-42"⟩
    ∧ Json.Int64 Host.trivial ⟨Data.string "-42"⟩
        = Json.Int64 Host.trivial ⟨Data.Number "-42"⟩
    ∧ ((Json.Uint64 Host.trivial ⟨Data.string "-42"⟩).2 = none
        ↔ (Json.Uint64 Host.trivial ⟨Data.Number "-42"⟩).2 = none) :=
  ⟨(string_agrees_with_Number Host.trivial "-42").1.2 (by decide),
    (string_agrees_with_Number Host.trivial "-42").2.1.2 (by decide),
    (string_agrees_with_Number Host.trivial "-42").2.2.1⟩

/-- C14: `Uint64` on a native integer never fails: a signed `n` of any width is returned
as `n mod 2^64` (so -1 gives `2^64-1`, while the number literal "-1" is rejected), an
unsigned `u` of any width is returned unchanged. -/
theorem Uint64_native_integer (h : Host) (d : Data) :
    (∀ n : Int, d.signedValue = some n →
        Json.Uint64 h ⟨d⟩ = ((n % 2 ^ 64).toNat, none)
        ∧ (((n % 2 ^ 64).toNat : Nat) : Int) = n % 2 ^ 64)
    ∧ (∀ u : Nat, d.unsignedValue = some u → Json.Uint64 h ⟨d⟩ = (u, none))
    ∧ Json.Uint64 h ⟨Data.int (-1)⟩ = (2 ^ 64 - 1, none)
    ∧ (Json.Uint64 h ⟨Data.Number "-1"⟩).2 ≠ none := by
  refine ⟨?_, ?_, ?_, ?_⟩
  · intro n hn
    have hmod : (((n % 2 ^ 64).toNat : Nat) : Int) = n % 2 ^ 64 :=
      Int.toNat_of_nonneg (Int.emod_nonneg _ (by norm_num))
    cases d <;> simp only [Data.signedValue, Option.some.injEq, reduceCtorEq] at hn <;>
      subst hn <;> exact ⟨rfl, hmod⟩
  · intro u hu
    cases d <;> simp only [Data.unsignedValue, Option.some.injEq, reduceCtorEq] at hu <;>
      subst hu <;> rfl
  · simp only [Json.Uint64, wrapUint64]
    norm_num
    rfl
  · rw [Uint64_Number_leading_minus h "-1" rfl]
    simp

/-- C14, at the `int8` value -1 and the `uint8` value 255. -/
theorem Uint64_native_integer_witness :
    (Json.Uint64 Host.trivial ⟨Data.int8 (-1)⟩ = (((-1 : Int) % 2 ^ 64).toNat, none)
      ∧ ((((-1 : Int) % 2 ^ 64).toNat : Nat) : Int) = (-1 : Int) % 2 ^ 64)
    ∧ Json.Uint64 Host.trivial ⟨Data.uint8 255⟩ = (255, none) :=
  ⟨(Uint64_native_integer Host.trivial (Data.int8 (-1))).1 (-1) rfl,
    (Uint64_native_integer Host.trivial (Data.uint8 255)).2.1 255 rfl⟩

/-- C16: with `int` 64 bits wide, `Int` and `Int64` return the same pair on every well
formed value: the same number and the same error or absence of error. -/
theorem Int_eq_Int64 (h : Host) (j : Json) (hwf : j.data.WF) :
    Json.Int h j = Json.Int64 h j := by
  obtain ⟨d⟩ := j
  cases d with
  | Number s => rw [Int_Number_eq, Int64_Number]
  | string s =>
    obtain ⟨hiff, hval⟩ := Atoi_ParseInt_agree s 0 (Or.inl rfl)
    rw [Int_string, Int64_string]
    by_cases ha : (Atoi s).2 = none
    · rw [if_pos ha, if_pos (hiff.mp ha), hval ha]
    · rw [if_neg ha, if_neg (fun hn => ha (hiff.mpr hn))]
  | int n =>
    simp only [Data.WF] at hwf
    simp only [Json.Int, Json.Int64]
    rw [wrapInt64_of_range n (by norm_num at hwf ⊢; omega) (by norm_num at hwf ⊢; omega)]
  | int8 n =>
    simp only [Data.WF] at hwf
    simp only [Json.Int, Json.Int64]
    rw [wrapInt64_of_range n (by norm_num at hwf ⊢; omega) (by norm_num at hwf ⊢; omega)]
  | int16 n =>
    simp only [Data.WF] at hwf
    simp only [Json.Int, Json.Int64]
    rw [wrapInt64_of_range n (by norm_num at hwf ⊢; omega) (by norm_num at hwf ⊢; omega)]
  | int32 n =>
    simp only [Data.WF] at hwf
    simp only [Json.Int, Json.Int64]
    rw [wrapInt64_of_range n (by norm_num at hwf ⊢; omega) (by norm_num at hwf ⊢; omega)]
  | int64 n =>
    simp only [Data.WF] at hwf
    simp only [Json.Int, Json.Int64]
    rw [wrapInt64_of_range n (by norm_num at hwf ⊢; omega) (by norm_num at hwf ⊢; omega)]
  | _ => rfl

/-- C16, at a string that parses, at a number literal that is out of range (same bound,
same range error), and at a boolean (same generic error). -/
theorem Int_eq_Int64_witness :
    Json.Int Host.trivial ⟨Data.string "42"⟩ = Json.Int64 Host.trivial ⟨Data.string "42"⟩
    ∧ Json.Int Host.trivial ⟨Data.Number "9223372036854775808"⟩
        = Json.Int64 Host.trivial ⟨Data.Number "9223372036854775808"⟩
    ∧ Json.Int Host.trivial ⟨Data.bool true⟩ = Json.Int64 Host.trivial ⟨Data.bool true⟩
    ∧ Json.Int Host.trivial ⟨Data.int8 (-5)⟩ = Json.Int64 Host.trivial ⟨Data.int8 (-5)⟩ :=
  ⟨Int_eq_Int64 Host.trivial ⟨Data.string "42"⟩ trivial,
    Int_eq_Int64 Host.trivial ⟨Data.Number "9223372036854775808"⟩ trivial,
    Int_eq_Int64 Host.trivial ⟨Data.bool true⟩ trivial,
    Int_eq_Int64 Host.trivial ⟨Data.int8 (-5)⟩ (by simp [Data.WF])⟩

/-- The integer part computed by `GoFloat.trunc` has the sign of the float, and its
magnitude is the largest integer not above the magnitude of the float. -/
theorem trunc_spec (neg : Bool) (mant : Nat) (exp : Int) (t : Int)
    (ht : (GoFloat.finite neg mant exp).trunc = some t) :
    ((t.natAbs : ℚ) ≤ (GoFloat.finite neg mant exp).absValue
      ∧ (GoFloat.finite neg mant exp).absValue < (t.natAbs : ℚ) + 1)
    ∧ t = (if neg = true then -((t.natAbs : Nat) : Int) else ((t.natAbs : Nat) : Int)) := by
  simp only [GoFloat.trunc, Option.some.injEq] at ht
  generalize hm : (if 0 ≤ exp then mant * 2 ^ exp.toNat else mant / 2 ^ (-exp).toNat) = mag
    at ht
  have habs : t.natAbs = mag := by
    rw [← ht]
    cases neg <;> simp
  refine ⟨?_, ?_⟩
  · rw [habs, ← hm]
    simp only [GoFloat.absValue]
    by_cases he : 0 ≤ exp
    · rw [if_pos he, if_pos he]
      push_cast
      exact ⟨le_refl _, lt_add_one _⟩
    · rw [if_neg he, if_neg he]
      have hpos : (0 : ℚ) < 2 ^ (-exp).toNat := by positivity
      have hposN : 0 < 2 ^ (-exp).toNat := by positivity
      refine ⟨?_, ?_⟩
      · have := @Nat.cast_div_le ℚ _ mant (2 ^ (-exp).toNat)
        simpa using this
      · have hlt := Nat.lt_mul_div_succ mant hposN
        have hq : (mant : ℚ)
            < 2 ^ (-exp).toNat * (((mant / 2 ^ (-exp).toNat : Nat) : ℚ) + 1) := by
          exact_mod_cast hlt
        rw [div_lt_iff₀ hpos]
        linarith
  · rw [habs, ← ht]

/-- Every finite float has an integer part in the sense of the specification. -/
theorem integer_part_exists (neg : Bool) (mant : Nat) (exp : Int) :
    ∃ t : Int, ((t.natAbs : ℚ) ≤ (GoFloat.finite neg mant exp).absValue
        ∧ (GoFloat.finite neg mant exp).absValue < (t.natAbs : ℚ) + 1)
      ∧ t = (if neg = true then -((t.natAbs : Nat) : Int) else ((t.natAbs : Nat) : Int)) :=
  ⟨_, trunc_spec neg mant exp _ rfl⟩

/-- The conversion `int64(f)` of a finite float is fixed by the magnitude and the sign
of the float: it is the integer `t` with the sign of `f` and `|t| <= |f| < |t| + 1`,
whenever that integer is an `int64`. -/
theorem floatToInt64_of_spec (h : Host) (neg : Bool) (mant : Nat) (exp : Int) (t : Int)
    (hlo : (t.natAbs : ℚ) ≤ (GoFloat.finite neg mant exp).absValue)
    (hhi : (GoFloat.finite neg mant exp).absValue < (t.natAbs : ℚ) + 1)
    (hsign : t = (if neg = true then -((t.natAbs : Nat) : Int) else ((t.natAbs : Nat) : Int)))
    (h1 : -(2 : Int) ^ 63 ≤ t) (h2 : t < 2 ^ 63) :
    floatToInt64 h (GoFloat.finite neg mant exp) = t := by
  obtain ⟨u, hu⟩ : ∃ u, (GoFloat.finite neg mant exp).trunc = some u := ⟨_, rfl⟩
  obtain ⟨⟨ulo, uhi⟩, usign⟩ := trunc_spec neg mant exp u hu
  have hlt1 : (t.natAbs : ℚ) < (u.natAbs : ℚ) + 1 := lt_of_le_of_lt hlo uhi
  have hlt2 : (u.natAbs : ℚ) < (t.natAbs : ℚ) + 1 := lt_of_le_of_lt ulo hhi
  have hn1 : t.natAbs < u.natAbs + 1 := by exact_mod_cast hlt1
  have hn2 : u.natAbs < t.natAbs + 1 := by exact_mod_cast hlt2
  have habs : u.natAbs = t.natAbs := by omega
  have hut : u = t := by
    rw [usign, hsign, habs]
  simp only [floatToInt64, hu]
  rw [hut, if_pos ⟨h1, h2⟩]

/-- C13: for every finite native float `f` (32- or 64-bit) and the integer `t` that has
the sign of `f` and satisfies `|t| <= |f| < |t| + 1` (`f` cut toward zero, `|f|` being
the exact rational magnitude of `f`), if `t` fits in `int64` then `Int` and `Int64`
return `t` and no error. -/
theorem float_truncates_toward_zero (h : Host) (neg : Bool) (mant : Nat) (exp : Int)
    (t : Int)
    (hlo : (t.natAbs : ℚ) ≤ (GoFloat.finite neg mant exp).absValue)
    (hhi : (GoFloat.finite neg mant exp).absValue < (t.natAbs : ℚ) + 1)
    (hsign : t = (if neg = true then -((t.natAbs : Nat) : Int) else ((t.natAbs : Nat) : Int)))
    (h1 : -(2 : Int) ^ 63 ≤ t) (h2 : t < 2 ^ 63) :
    Json.Int h ⟨Data.float64 (GoFloat.finite neg mant exp)⟩ = (t, none)
    ∧ Json.Int64 h ⟨Data.float64 (GoFloat.finite neg mant exp)⟩ = (t, none)
    ∧ Json.Int h ⟨Data.float32 (GoFloat.finite neg mant exp)⟩ = (t, none)
    ∧ Json.Int64 h ⟨Data.float32 (GoFloat.finite neg mant exp)⟩ = (t, none) := by
  have hconv := floatToInt64_of_spec h neg mant exp t hlo hhi hsign h1 h2
  refine ⟨?_, ?_, ?_, ?_⟩ <;> simp only [Json.Int, Json.Int64, hconv]

/-- C13, at the `float64` nearest to 3.9, `8782019273372467 * 2^-51`, and at its
negation: the results are 3 and -3; and at 5.0, `5 * 2^0`. -/
theorem float_truncates_toward_zero_witness :
    (Json.Int Host.trivial ⟨Data.float64 (GoFloat.finite false 8782019273372467 (-51))⟩
        = (3, none)
      ∧ Json.Int64 Host.trivial ⟨Data.float64 (GoFloat.finite false 8782019273372467 (-51))⟩
        = (3, none))
    ∧ (Json.Int Host.trivial ⟨Data.float64 (GoFloat.finite true 8782019273372467 (-51))⟩
        = (-3, none)
      ∧ Json.Int64 Host.trivial ⟨Data.float64 (GoFloat.finite true 8782019273372467 (-51))⟩
        = (-3, none))
    ∧ Json.Int64 Host.trivial ⟨Data.float64 (GoFloat.finite false 5 0)⟩ = (5, none) :=
  ⟨⟨(float_truncates_toward_zero Host.trivial false 8782019273372467 (-51) 3
        (by have h : Int.toNat 51 = 51 := rfl; norm_num [GoFloat.absValue, h])
        (by have h : Int.toNat 51 = 51 := rfl; norm_num [GoFloat.absValue, h]) (by decide)
        (by decide) (by decide)).1,
      (float_truncates_toward_zero Host.trivial false 8782019273372467 (-51) 3
        (by have h : Int.toNat 51 = 51 := rfl; norm_num [GoFloat.absValue, h])
        (by have h : Int.toNat 51 = 51 := rfl; norm_num [GoFloat.absValue, h]) (by decide)
        (by decide) (by decide)).2.1⟩,
    ⟨(float_truncates_toward_zero Host.trivial true 8782019273372467 (-51) (-3)
        (by have h : Int.toNat 51 = 51 := rfl; norm_num [GoFloat.absValue, h])
        (by have h : Int.toNat 51 = 51 := rfl; norm_num [GoFloat.absValue, h]) (by decide)
        (by decide) (by decide)).1,
      (float_truncates_toward_zero Host.trivial true 8782019273372467 (-51) (-3)
        (by have h : Int.toNat 51 = 51 := rfl; norm_num [GoFloat.absValue, h])
        (by have h : Int.toNat 51 = 51 := rfl; norm_num [GoFloat.absValue, h]) (by decide)
        (by decide) (by decide)).2.1⟩,
    (float_truncates_toward_zero Host.trivial false 5 0 5
      (by norm_num [GoFloat.absValue]) (by norm_num [GoFloat.absValue]) (by decide)
      (by decide) (by decide)).2.1⟩

/-! ## The branches of the string helpers -/

/-- Dropping the log of a helper gives the helper. -/
theorem helperLog_fst (h : Host) (raw : Data) :
    (floatFromStringLog h raw).1 = floatFromString h raw
    ∧ (intFromStringLog raw).1 = intFromString raw
    ∧ (int64FromStringLog raw).1 = int64FromString raw
    ∧ (uint64FromStringLog raw).1 = uint64FromString raw := by
  cases raw <;> exact ⟨rfl, rfl, rfl, rfl⟩

/-- Dropping the log of an accessor gives the accessor. -/
theorem accessorLog_fst (h : Host) (j : Json) :
    (Json.Float64Log h j).1 = Json.Float64 h j
    ∧ (Json.IntLog h j).1 = Json.Int h j
    ∧ (Json.Int64Log h j).1 = Json.Int64 h j
    ∧ (Json.Uint64Log h j).1 = Json.Uint64 h j := by
  obtain ⟨d⟩ := j
  cases d with
  | string s =>
    refine ⟨?_, ?_, ?_, ?_⟩
    · simp only [Json.Float64Log, Json.Float64, floatFromStringLog, floatFromString]
      rcases h.ParseFloat s with ⟨v, _ | e⟩ <;> rfl
    · simp only [Json.IntLog, Json.Int, intFromStringLog, intFromString]
      rcases Atoi s with ⟨v, _ | e⟩ <;> rfl
    · simp only [Json.Int64Log, Json.Int64, int64FromStringLog, int64FromString]
      rcases ParseInt s 0 with ⟨v, _ | e⟩ <;> rfl
    · simp only [Json.Uint64Log, Json.Uint64, uint64FromStringLog, uint64FromString]
      rcases ParseUint s 0 with ⟨v, _ | e⟩ <;> rfl
  | _ => exact ⟨rfl, rfl, rfl, rfl⟩

/-- The log of an accessor on a string: the helper is called and parses. -/
theorem accessorLog_string (h : Host) (s : String) :
    (Json.Float64Log h ⟨Data.string s⟩).2 = [Branch.parse "floatFromString"]
    ∧ (Json.IntLog h ⟨Data.string s⟩).2 = [Branch.parse "intFromString"]
    ∧ (Json.Int64Log h ⟨Data.string s⟩).2 = [Branch.parse "int64FromString"]
    ∧ (Json.Uint64Log h ⟨Data.string s⟩).2 = [Branch.parse "uint64FromString"] := by
  refine ⟨?_, ?_, ?_, ?_⟩
  · simp only [Json.Float64Log, floatFromStringLog]
    rcases h.ParseFloat s with ⟨v, _ | e⟩ <;> rfl
  · simp only [Json.IntLog, intFromStringLog]
    rcases Atoi s with ⟨v, _ | e⟩ <;> rfl
  · simp only [Json.Int64Log, int64FromStringLog]
    rcases ParseInt s 0 with ⟨v, _ | e⟩ <;> rfl
  · simp only [Json.Uint64Log, uint64FromStringLog]
    rcases ParseUint s 0 with ⟨v, _ | e⟩ <;> rfl

/-- C15 as stated fails at the boolean `true`: no case of the type switch of `Int64`
returns, `int64FromString` is called with the boolean and takes its "value not string"
branch, whose error the accessor replaces by the generic one. -/
theorem helper_reached_with_bool :
    Json.Int64Log Host.trivial ⟨Data.bool true⟩
        = ((0, some (Error.errorString "invalid value type")),
            [Branch.valueNotString "int64FromString"])
    ∧ int64FromStringLog (Data.bool true)
        = ((0, some (Error.errorString "unable to parse, value not string: bool")),
            [Branch.valueNotString "int64FromString"])
    ∧ int64FromString (Data.bool true)
        = (0, some (Error.errorString "unable to parse, value not string: bool"))
    ∧ (Json.Int64Log Host.trivial ⟨Data.bool true⟩).1 = Json.Int64 Host.trivial ⟨Data.bool true⟩
    ∧ ¬ (Branch.valueNotString "int64FromString"
          ∉ (Json.Int64Log Host.trivial ⟨Data.bool true⟩).2) := by
  decide

/-- C15, amended: the string helpers are reached from the accessors with every value
that is not a number literal, a native float or a native integer.  On a string the
helper parses and its "value not string" branch is not taken; the branch is taken
exactly on a boolean, null, sequence or mapping, and the accessor then returns the zero
value with the generic error "invalid value type"; on a number literal, a native float
or a native integer no helper is called. -/
theorem helper_not_string_branch (h : Host) (j : Json) :
    ((Json.Float64Log h j).1 = Json.Float64 h j
      ∧ (Json.IntLog h j).1 = Json.Int h j
      ∧ (Json.Int64Log h j).1 = Json.Int64 h j
      ∧ (Json.Uint64Log h j).1 = Json.Uint64 h j)
    ∧ (∀ s, j.data = Data.string s →
        (Json.Float64Log h j).2 = [Branch.parse "floatFromString"]
        ∧ (Json.IntLog h j).2 = [Branch.parse "intFromString"]
        ∧ (Json.Int64Log h j).2 = [Branch.parse "int64FromString"]
        ∧ (Json.Uint64Log h j).2 = [Branch.parse "uint64FromString"])
    ∧ (((∃ b, j.data = Data.bool b) ∨ j.data = Data.null ∨ (∃ xs, j.data = Data.array xs)
          ∨ (∃ kvs, j.data = Data.object kvs)) →
        Json.Float64Log h j
          = ((GoFloat.zero, some (Error.errorString "invalid value type")),
              [Branch.valueNotString "floatFromString"])
        ∧ Json.IntLog h j
          = ((0, some (Error.errorString "invalid value type")),
              [Branch.valueNotString "intFromString"])
        ∧ Json.Int64Log h j
          = ((0, some (Error.errorString "invalid value type")),
              [Branch.valueNotString "int64FromString"])
        ∧ Json.Uint64Log h j
          = ((0, some (Error.errorString "invalid value type")),
              [Branch.valueNotString "uint64FromString"]))
    ∧ ((Branch.valueNotString "floatFromString" ∈ (Json.Float64Log h j).2
          ∨ Branch.valueNotString "intFromString" ∈ (Json.IntLog h j).2
          ∨ Branch.valueNotString "int64FromString" ∈ (Json.Int64Log h j).2
          ∨ Branch.valueNotString "uint64FromString" ∈ (Json.Uint64Log h j).2) →
        ((∃ b, j.data = Data.bool b) ∨ j.data = Data.null ∨ (∃ xs, j.data = Data.array xs)
          ∨ (∃ kvs, j.data = Data.object kvs)))
    ∧ (((Json.Float64Log h j).2 = [] ∧ (Json.IntLog h j).2 = []
          ∧ (Json.Int64Log h j).2 = [] ∧ (Json.Uint64Log h j).2 = []) ↔
        ¬ ((∃ s, j.data = Data.string s) ∨ (∃ b, j.data = Data.bool b) ∨ j.data = Data.null
          ∨ (∃ xs, j.data = Data.array xs) ∨ (∃ kvs, j.data = Data.object kvs))) := by
  refine ⟨accessorLog_fst h j, ?_, ?_, ?_, ?_⟩
  · intro s hs
    obtain ⟨d⟩ := j
    simp only at hs
    subst hs
    exact accessorLog_string h s
  · obtain ⟨d⟩ := j
    rintro (⟨b, hb⟩ | hn | ⟨xs, hx⟩ | ⟨kvs, hk⟩) <;> simp only at * <;> subst_vars <;>
      exact ⟨rfl, rfl, rfl, rfl⟩
  · obtain ⟨d⟩ := j
    intro hmem
    cases d with
    | string s =>
      obtain ⟨h1, h2, h3, h4⟩ := accessorLog_string h s
      rw [h1, h2, h3, h4] at hmem
      simp at hmem
    | bool b => exact Or.inl ⟨b, rfl⟩
    | null => exact Or.inr (Or.inl rfl)
    | array xs => exact Or.inr (Or.inr (Or.inl ⟨xs, rfl⟩))
    | object kvs => exact Or.inr (Or.inr (Or.inr ⟨kvs, rfl⟩))
    | _ => simp [Json.Float64Log, Json.IntLog, Json.Int64Log, Json.Uint64Log] at hmem
  · obtain ⟨d⟩ := j
    cases d with
    | string s =>
      obtain ⟨h1, h2, h3, h4⟩ := accessorLog_string h s
      rw [h1, h2, h3, h4]
      simp
    | _ => simp [Json.Float64Log, Json.IntLog, Json.Int64Log, Json.Uint64Log,
        floatFromStringLog, intFromStringLog, int64FromStringLog, uint64FromStringLog]

/-- C15, amended, at null (the branch is taken in the four accessors) and at the
string "abc" (the helper is reached and calls the parser). -/
theorem helper_not_string_branch_witness :
    (Json.Float64Log Host.trivial ⟨Data.null⟩
          = ((GoFloat.zero, some (Error.errorString "invalid value type")),
              [Branch.valueNotString "floatFromString"])
      ∧ Json.IntLog Host.trivial ⟨Data.null⟩
          = ((0, some (Error.errorString "invalid value type")),
              [Branch.valueNotString "intFromString"])
      ∧ Json.Int64Log Host.trivial ⟨Data.null⟩
          = ((0, some (Error.errorString "invalid value type")),
              [Branch.valueNotString "int64FromString"])
      ∧ Json.Uint64Log Host.trivial ⟨Data.null⟩
          = ((0, some (Error.errorString "invalid value type")),
              [Branch.valueNotString "uint64FromString"]))
    ∧ ((Json.Float64Log Host.trivial ⟨Data.string "abc"⟩).2 = [Branch.parse "floatFromString"]
      ∧ (Json.IntLog Host.trivial ⟨Data.string "abc"⟩).2 = [Branch.parse "intFromString"]
      ∧ (Json.Int64Log Host.trivial ⟨Data.string "abc"⟩).2 = [Branch.parse "int64FromString"]
      ∧ (Json.Uint64Log Host.trivial ⟨Data.string "abc"⟩).2
          = [Branch.parse "uint64FromString"]) :=
  ⟨(helper_not_string_branch Host.trivial ⟨Data.null⟩).2.2.1 (Or.inr (Or.inl rfl)),
    (helper_not_string_branch Host.trivial ⟨Data.string "abc"⟩).2.1 "abc" rfl⟩

end simplejson
